import Mathlib

/-!
# Verification of the hotel management layer (src/Hotel.py)

Shallow embedding of the in-memory management layer (`GestorHotel`) of the
hotel console application.  The Python code works with shared mutable object
references: a `Reserva` aliases its `Habitacion` and `Cliente` objects, and
the registries hold references to the same objects.  We model this with
append-only heaps: each entity kind lives in a heap (a `List`), an object
reference is its index (address) in that heap, and the registries are lists
of addresses.  Mutating a field of an object is `List.set` at its address;
every holder of the address observes the change, exactly as in Python.

Python `float` prices are modelled as `Rat` (prices are only stored and
compared, never subjected to float rounding in the claims considered);
`datetime` values are opaque and modelled as `Int`; reservation status is the
literal string field of the source (`"Activa"` / `"Cancelada"`).

An operation that dereferences an address (`reserva.habitacion` etc.) would
raise in Python were the reference invalid; the embedding returns `none` in
that case, so mutating operations return `Option`.  In every reachable state
all registered addresses are valid and `none` never occurs.
-/

/-- `Habitacion`: numero, tipo (category label), precio_por_noche, disponible.
The three subclasses differ only in the label and discount factor; the label
is carried as a field. -/
structure Habitacion where
  numero : Int
  tipo : String
  precio_por_noche : Rat
  disponible : Bool
deriving Repr, DecidableEq

/-- The three room categories (`HabitacionEstandar`, `HabitacionSuite`,
`HabitacionDeluxe`). -/
inductive Tipo where
  | estandar
  | suite
  | deluxe
deriving Repr, DecidableEq

/-- Category label assigned at construction by each subclass. -/
def tipoLabel : Tipo → String
  | .estandar => "Estándar"
  | .suite => "Suite"
  | .deluxe => "Deluxe"

/-- Constructor of a room: `disponible` defaults to `True`. -/
def mkHabitacion (t : Tipo) (numero : Int) (precio : Rat) : Habitacion :=
  { numero := numero, tipo := tipoLabel t, precio_por_noche := precio, disponible := true }

/-- `aplicar_descuento`: each subclass multiplies the rate by its factor
(Estándar 0.95, Suite 0.9, Deluxe 0.85).  Dispatch is on the category. -/
def aplicar_descuento (t : Tipo) (h : Habitacion) : Habitacion :=
  match t with
  | .estandar => { h with precio_por_noche := h.precio_por_noche * (95 / 100 : Rat) }
  | .suite => { h with precio_por_noche := h.precio_por_noche * (9 / 10 : Rat) }
  | .deluxe => { h with precio_por_noche := h.precio_por_noche * (85 / 100 : Rat) }

/-- `Cliente`: names, dpi, and the client-owned reservation sequence
(`self.reservas`, a list of references = heap addresses, initially empty). -/
structure Cliente where
  nombres : String
  apellidos : String
  dpi : String
  reservas : List Nat
deriving Repr, DecidableEq

/-- `Cliente.__init__`: `reservas` starts empty. -/
def mkCliente (nombres apellidos dpi : String) : Cliente :=
  { nombres := nombres, apellidos := apellidos, dpi := dpi, reservas := [] }

/-- `Reserva`: references (heap addresses) to its client and room, the two
dates, and the status string. -/
structure Reserva where
  cliente : Nat
  habitacion : Nat
  fecha_entrada : Int
  fecha_salida : Int
  estado : String
deriving Repr, DecidableEq

/-- `Reserva.__init__`: `estado` starts as `"Activa"`. -/
def mkReserva (cliente habitacion : Nat) (fecha_entrada fecha_salida : Int) : Reserva :=
  { cliente := cliente, habitacion := habitacion, fecha_entrada := fecha_entrada,
    fecha_salida := fecha_salida, estado := "Activa" }

/-- `GestorHotel` state: the three object heaps (object address = index) and
the three registries `self.habitaciones`, `self.clientes`, `self.reservas`
(lists of addresses, insertion order). -/
structure GestorHotel where
  roomHeap : List Habitacion
  clientHeap : List Cliente
  resHeap : List Reserva
  habitaciones : List Nat
  clientes : List Nat
  reservas : List Nat
deriving Repr, DecidableEq

/-- `GestorHotel.__init__`: everything empty. -/
def gestorInicial : GestorHotel :=
  { roomHeap := [], clientHeap := [], resHeap := [], habitaciones := [], clientes := [],
    reservas := [] }

/-- `agregar_habitacion`: appends the room reference to the registry
(no uniqueness check). -/
def agregar_habitacion (g : GestorHotel) (a : Nat) : GestorHotel :=
  { g with habitaciones := g.habitaciones ++ [a] }

/-- Loop of `modificar_habitacion`: scan the registry, overwrite
`precio_por_noche` of the first room whose `numero` matches and return
`True`; `False` when the scan ends. -/
def modificar_habitacion_go (heap : List Habitacion) (regs : List Nat) (numero : Int)
    (nuevo_precio : Rat) : Option (List Habitacion × Bool) :=
  match regs with
  | [] => some (heap, false)
  | a :: rest =>
    match heap[a]? with
    | none => none
    | some r =>
      if r.numero = numero then
        some (heap.set a { r with precio_por_noche := nuevo_precio }, true)
      else modificar_habitacion_go heap rest numero nuevo_precio

/-- `modificar_habitacion(numero, nuevo_precio)`. -/
def modificar_habitacion (g : GestorHotel) (numero : Int) (nuevo_precio : Rat) :
    Option (GestorHotel × Bool) :=
  match modificar_habitacion_go g.roomHeap g.habitaciones numero nuevo_precio with
  | none => none
  | some (heap, b) => some ({ g with roomHeap := heap }, b)

/-- Filter of `eliminar_habitacion`: keep the references whose room's
`numero` differs. -/
def eliminar_habitacion_go (heap : List Habitacion) (regs : List Nat) (numero : Int) :
    Option (List Nat) :=
  match regs with
  | [] => some []
  | a :: rest =>
    match heap[a]? with
    | none => none
    | some r =>
      match eliminar_habitacion_go heap rest numero with
      | none => none
      | some l => some (if r.numero = numero then l else a :: l)

/-- `eliminar_habitacion(numero)`: rebuilds the registry without the rooms of
that number; returns nothing (no success flag). -/
def eliminar_habitacion (g : GestorHotel) (numero : Int) : Option GestorHotel :=
  match eliminar_habitacion_go g.roomHeap g.habitaciones numero with
  | none => none
  | some l => some { g with habitaciones := l }

/-- `registrar_cliente`: appends the client reference to the registry
(no uniqueness check). -/
def registrar_cliente (g : GestorHotel) (a : Nat) : GestorHotel :=
  { g with clientes := g.clientes ++ [a] }

/-- Loop of `actualizar_cliente`: first client whose `dpi` matches gets new
names, return `True`; `False` when the scan ends. -/
def actualizar_cliente_go (heap : List Cliente) (regs : List Nat) (dpi nombres apellidos : String) :
    Option (List Cliente × Bool) :=
  match regs with
  | [] => some (heap, false)
  | a :: rest =>
    match heap[a]? with
    | none => none
    | some c =>
      if c.dpi = dpi then
        some (heap.set a { c with nombres := nombres, apellidos := apellidos }, true)
      else actualizar_cliente_go heap rest dpi nombres apellidos

/-- `actualizar_cliente(dpi, nuevos_nombres, nuevos_apellidos)`. -/
def actualizar_cliente (g : GestorHotel) (dpi nombres apellidos : String) :
    Option (GestorHotel × Bool) :=
  match actualizar_cliente_go g.clientHeap g.clientes dpi nombres apellidos with
  | none => none
  | some (heap, b) => some ({ g with clientHeap := heap }, b)

/-- `crear_reserva(reserva)`: `reserva` is the heap address of an
already-constructed reservation.  If its room is `disponible`, flip the flag
to `False`, append the reservation to the global registry and to the owning
client's own list, and return `True`; otherwise change nothing and return
`False`.  The client reference is only dereferenced on the success path,
as in the source. -/
def crear_reserva (g : GestorHotel) (i : Nat) : Option (GestorHotel × Bool) :=
  match g.resHeap[i]? with
  | none => none
  | some res =>
    match g.roomHeap[res.habitacion]? with
    | none => none
    | some room =>
      if room.disponible then
        match g.clientHeap[res.cliente]? with
        | none => none
        | some cli =>
          some ({ g with
                  roomHeap := g.roomHeap.set res.habitacion { room with disponible := false },
                  reservas := g.reservas ++ [i],
                  clientHeap := g.clientHeap.set res.cliente
                    { cli with reservas := cli.reservas ++ [i] } }, true)
      else some (g, false)

/-- Loop of `modificar_reserva`: the guard is
`reserva.cliente.dpi == cliente_dpi and reserva.habitacion.numero == numero`,
with Python's short-circuit (the room is only dereferenced when the dpi
matches).  The first match gets both dates overwritten. -/
def modificar_reserva_go (resHeap : List Reserva) (cHeap : List Cliente)
    (rHeap : List Habitacion) (regs : List Nat) (dpi : String) (numero : Int)
    (fe fs : Int) : Option (List Reserva × Bool) :=
  match regs with
  | [] => some (resHeap, false)
  | i :: rest =>
    match resHeap[i]? with
    | none => none
    | some res =>
      match cHeap[res.cliente]? with
      | none => none
      | some c =>
        if c.dpi = dpi then
          match rHeap[res.habitacion]? with
          | none => none
          | some room =>
            if room.numero = numero then
              some (resHeap.set i { res with fecha_entrada := fe, fecha_salida := fs }, true)
            else modificar_reserva_go resHeap cHeap rHeap rest dpi numero fe fs
        else modificar_reserva_go resHeap cHeap rHeap rest dpi numero fe fs

/-- `modificar_reserva(cliente_dpi, numero_habitacion, fe, fs)`. -/
def modificar_reserva (g : GestorHotel) (dpi : String) (numero : Int) (fe fs : Int) :
    Option (GestorHotel × Bool) :=
  match modificar_reserva_go g.resHeap g.clientHeap g.roomHeap g.reservas dpi numero fe fs with
  | none => none
  | some (heap, b) => some ({ g with resHeap := heap }, b)

/-- Loop of `cancelar_reserva`: same scan as `modificar_reserva`; the first
match gets `estado = "Cancelada"` and its room gets `disponible = True`. -/
def cancelar_reserva_go (resHeap : List Reserva) (cHeap : List Cliente)
    (rHeap : List Habitacion) (regs : List Nat) (dpi : String) (numero : Int) :
    Option (List Reserva × List Habitacion × Bool) :=
  match regs with
  | [] => some (resHeap, rHeap, false)
  | i :: rest =>
    match resHeap[i]? with
    | none => none
    | some res =>
      match cHeap[res.cliente]? with
      | none => none
      | some c =>
        if c.dpi = dpi then
          match rHeap[res.habitacion]? with
          | none => none
          | some room =>
            if room.numero = numero then
              some (resHeap.set i { res with estado := "Cancelada" },
                    rHeap.set res.habitacion { room with disponible := true }, true)
            else cancelar_reserva_go resHeap cHeap rHeap rest dpi numero
        else cancelar_reserva_go resHeap cHeap rHeap rest dpi numero

/-- `cancelar_reserva(cliente_dpi, numero_habitacion)`. -/
def cancelar_reserva (g : GestorHotel) (dpi : String) (numero : Int) :
    Option (GestorHotel × Bool) :=
  match cancelar_reserva_go g.resHeap g.clientHeap g.roomHeap g.reservas dpi numero with
  | none => none
  | some (resHeap, roomHeap, b) =>
    some ({ g with resHeap := resHeap, roomHeap := roomHeap }, b)

/-- Comprehension of `consultar_disponibilidad`: the registered rooms with
`disponible` set, in registry order (as references). -/
def consultar_disponibilidad_go (heap : List Habitacion) (regs : List Nat) :
    Option (List Nat) :=
  match regs with
  | [] => some []
  | a :: rest =>
    match heap[a]? with
    | none => none
    | some r =>
      match consultar_disponibilidad_go heap rest with
      | none => none
      | some l => some (if r.disponible then a :: l else l)

set_option linter.unusedVariables false in
/-- `consultar_disponibilidad(fecha_inicio, fecha_fin)`: the two date
parameters are accepted but unused, as in the source. -/
def consultar_disponibilidad (g : GestorHotel) (fecha_inicio fecha_fin : Int) :
    Option (List Nat) :=
  consultar_disponibilidad_go g.roomHeap g.habitaciones

/-- `obtener_cliente(dpi)`: first-match lookup; inner `none` is Python's
`None` result, outer `none` a failed dereference. -/
def obtener_cliente_go (heap : List Cliente) (regs : List Nat) (dpi : String) :
    Option (Option Nat) :=
  match regs with
  | [] => some none
  | a :: rest =>
    match heap[a]? with
    | none => none
    | some c =>
      if c.dpi = dpi then some (some a) else obtener_cliente_go heap rest dpi

/-- `obtener_cliente(dpi)`. -/
def obtener_cliente (g : GestorHotel) (dpi : String) : Option (Option Nat) :=
  obtener_cliente_go g.clientHeap g.clientes dpi

/-- `obtener_habitacion(numero)`: first-match lookup. -/
def obtener_habitacion_go (heap : List Habitacion) (regs : List Nat) (numero : Int) :
    Option (Option Nat) :=
  match regs with
  | [] => some none
  | a :: rest =>
    match heap[a]? with
    | none => none
    | some r =>
      if r.numero = numero then some (some a) else obtener_habitacion_go heap rest numero

/-- `obtener_habitacion(numero)`. -/
def obtener_habitacion (g : GestorHotel) (numero : Int) : Option (Option Nat) :=
  obtener_habitacion_go g.roomHeap g.habitaciones numero

/-! ## Trace semantics

The management layer is driven by the interactive shell, which constructs
fresh entity objects and passes them to the operations above.  An `Op` is one
shell-level invocation; `aplicarOp` allocates the fresh objects on the heaps
(Python object construction) and calls the corresponding method.  A state is
reachable when some operation sequence run from the empty `gestorInicial`
produces it. -/

/-- One management-layer operation, as invoked by the shell. -/
inductive Op where
  | agregarHabitacion (t : Tipo) (numero : Int) (precio : Rat)
  | modificarHabitacion (numero : Int) (nuevo_precio : Rat)
  | eliminarHabitacion (numero : Int)
  | registrarCliente (nombres apellidos dpi : String)
  | actualizarCliente (dpi nombres apellidos : String)
  | crearReserva (cliente habitacion : Nat) (fe fs : Int)
  | modificarReserva (dpi : String) (numero : Int) (fe fs : Int)
  | cancelarReserva (dpi : String) (numero : Int)
deriving Repr, DecidableEq

/-- Execute one operation: allocate the fresh objects the shell would build,
then run the method.  Booleans returned to the shell are dropped (the shell
only prints). -/
def aplicarOp (g : GestorHotel) : Op → Option GestorHotel
  | .agregarHabitacion t numero precio =>
    some (agregar_habitacion { g with roomHeap := g.roomHeap ++ [mkHabitacion t numero precio] }
      g.roomHeap.length)
  | .modificarHabitacion numero precio =>
    match modificar_habitacion g numero precio with
    | none => none
    | some (g', _) => some g'
  | .eliminarHabitacion numero => eliminar_habitacion g numero
  | .registrarCliente nombres apellidos dpi =>
    some (registrar_cliente { g with clientHeap := g.clientHeap ++ [mkCliente nombres apellidos dpi] }
      g.clientHeap.length)
  | .actualizarCliente dpi nombres apellidos =>
    match actualizar_cliente g dpi nombres apellidos with
    | none => none
    | some (g', _) => some g'
  | .crearReserva ci ri fe fs =>
    match crear_reserva { g with resHeap := g.resHeap ++ [mkReserva ci ri fe fs] }
        g.resHeap.length with
    | none => none
    | some (g', _) => some g'
  | .modificarReserva dpi numero fe fs =>
    match modificar_reserva g dpi numero fe fs with
    | none => none
    | some (g', _) => some g'
  | .cancelarReserva dpi numero =>
    match cancelar_reserva g dpi numero with
    | none => none
    | some (g', _) => some g'

/-- Run a sequence of operations from a state. -/
def correrDesde (g : GestorHotel) : List Op → Option GestorHotel
  | [] => some g
  | op :: rest =>
    match aplicarOp g op with
    | none => none
    | some g' => correrDesde g' rest

/-- Run a sequence of operations from the empty initial state. -/
def correr (ops : List Op) : Option GestorHotel :=
  correrDesde gestorInicial ops

/-- Is the reservation at address `i` registered-active and bound to the room
at address `a`?  (Object identity: addresses.) -/
def reservaActivaEn (resHeap : List Reserva) (i : Nat) (a : Nat) : Bool :=
  match resHeap[i]? with
  | none => false
  | some res => res.habitacion = a && res.estado = "Activa"

/-- Number of reservations in the global registry with status `"Activa"`
bound to the room object at address `a`. -/
def activasEn (g : GestorHotel) (a : Nat) : Nat :=
  g.reservas.countP (fun i => reservaActivaEn g.resHeap i a)

/-! ## Scan predicates

`...Coincide` : the object at the address exists and matches the key.
`...Salta`   : the object exists and the scan skips it (the guard of the
`for` loop is false); for reservations this follows Python's short-circuit:
the room is only dereferenced when the dpi already matches. -/

/-- The room at address `a` exists and has `numero = n`. -/
def habCoincide (heap : List Habitacion) (n : Int) (a : Nat) : Bool :=
  match heap[a]? with
  | none => false
  | some r => r.numero = n

/-- The room at address `a` exists and has `numero ≠ n`. -/
def habSalta (heap : List Habitacion) (n : Int) (a : Nat) : Bool :=
  match heap[a]? with
  | none => false
  | some r => !(r.numero = n)

/-- The room at address `a` exists and is `disponible`. -/
def habDisponible (heap : List Habitacion) (a : Nat) : Bool :=
  match heap[a]? with
  | none => false
  | some r => r.disponible

/-- The client at address `a` exists and has `dpi = d`. -/
def cliCoincide (heap : List Cliente) (d : String) (a : Nat) : Bool :=
  match heap[a]? with
  | none => false
  | some c => c.dpi = d

/-- The client at address `a` exists and has `dpi ≠ d`. -/
def cliSalta (heap : List Cliente) (d : String) (a : Nat) : Bool :=
  match heap[a]? with
  | none => false
  | some c => !(c.dpi = d)

/-- The `dpi` of the client at an address, when it exists. -/
def dpiDe (heap : List Cliente) (a : Nat) : Option String :=
  match heap[a]? with
  | none => none
  | some c => some c.dpi

/-- The `numero` of the room at an address, when it exists. -/
def numeroDe (heap : List Habitacion) (a : Nat) : Option Int :=
  match heap[a]? with
  | none => none
  | some r => some r.numero

/-- The reservation at address `i` exists and matches the pair `(d, n)`. -/
def resCoincide (resHeap : List Reserva) (cHeap : List Cliente) (rHeap : List Habitacion)
    (d : String) (n : Int) (i : Nat) : Bool :=
  match resHeap[i]? with
  | none => false
  | some res =>
    match cHeap[res.cliente]? with
    | none => false
    | some c =>
      c.dpi = d &&
        (match rHeap[res.habitacion]? with
         | none => false
         | some room => room.numero = n)

/-- The reservation at address `i` exists and the scan on key `(d, n)` skips
it without failing (dpi differs, or dpi matches and the room's numero
differs). -/
def resSalta (resHeap : List Reserva) (cHeap : List Cliente) (rHeap : List Habitacion)
    (d : String) (n : Int) (i : Nat) : Bool :=
  match resHeap[i]? with
  | none => false
  | some res =>
    match cHeap[res.cliente]? with
    | none => false
    | some c =>
      if c.dpi = d then
        match rHeap[res.habitacion]? with
        | none => false
        | some room => !(room.numero = n)
      else true

/-- First registered reservation matching the pair, in insertion order
(defined on states whose registered entries all dereference). -/
def primeraReserva (g : GestorHotel) (d : String) (n : Int) : Option Nat :=
  g.reservas.find? (resCoincide g.resHeap g.clientHeap g.roomHeap d n)

/-- The state after a successful `crear_reserva` on reservation address `i`
whose room and client objects are `room` and `cli`. -/
def crear_reserva_exito (g : GestorHotel) (i : Nat) (res : Reserva) (room : Habitacion)
    (cli : Cliente) : GestorHotel :=
  { g with
    roomHeap := g.roomHeap.set res.habitacion { room with disponible := false },
    reservas := g.reservas ++ [i],
    clientHeap := g.clientHeap.set res.cliente { cli with reservas := cli.reservas ++ [i] } }

/-! ## Reachability invariants

`InvReservas`: every registered reservation dereferences, its room address is
in range, and the reservation appears in its owning client's list (`C9`).

`InvActivas`: an available room has no Active reservation bound to it, and no
room ever has more than one (`C1`; the second half only survives under
`trazaOk`, see below). -/

/-- The reservation registered at address `i` is well linked. -/
def resValida (g : GestorHotel) (i : Nat) : Prop :=
  ∃ res, g.resHeap[i]? = some res ∧ res.habitacion < g.roomHeap.length ∧
    ∃ c, g.clientHeap[res.cliente]? = some c ∧ i ∈ c.reservas

/-- Every registered reservation is well linked. -/
def InvReservas (g : GestorHotel) : Prop := ∀ i ∈ g.reservas, resValida g i

/-- Per-room active-reservation bound. -/
def InvActivas (g : GestorHotel) : Prop :=
  ∀ a r, g.roomHeap[a]? = some r →
    (r.disponible = true → activasEn g a = 0) ∧ activasEn g a ≤ 1

/-- The guard of the amended C1: a `cancelar_reserva` call is benign when the
first matching reservation (if any) is still `"Activa"`. -/
def opOk (g : GestorHotel) : Op → Bool
  | .cancelarReserva d n =>
    match primeraReserva g d n with
    | none => true
    | some i =>
      match g.resHeap[i]? with
      | none => true
      | some res => res.estado = "Activa"
  | _ => true

/-- Every operation of the trace is benign at the state where it runs. -/
def trazaOk (g : GestorHotel) : List Op → Bool
  | [] => true
  | op :: rest =>
    opOk g op &&
      (match aplicarOp g op with
       | none => true
       | some g' => trazaOk g' rest)


/-! ## Concrete states and traces used by the verification scenarios -/

/-- Trace refuting the one-Active-per-room invariant: book, cancel, book,
cancel again (the scan hits the first — already cancelled — reservation and
re-opens the room while the second reservation is still Active), book. -/
def trazaC1 : List Op :=
  [ .agregarHabitacion .estandar 101 100,
    .registrarCliente "Ana" "Lopez" "CF1",
    .crearReserva 0 0 1 2,
    .cancelarReserva "CF1" 101,
    .crearReserva 0 0 3 4,
    .cancelarReserva "CF1" 101,
    .crearReserva 0 0 5 6 ]

/-- Room 101 after its last booking. -/
def habC1 : Habitacion :=
  { numero := 101, tipo := "Estándar", precio_por_noche := 100, disponible := false }

/-- The state `trazaC1` reaches: reservations 1 and 2 are both Active on the
room at address 0. -/
def gC1 : GestorHotel :=
  { roomHeap := [habC1],
    clientHeap := [{ nombres := "Ana", apellidos := "Lopez", dpi := "CF1", reservas := [0, 1, 2] }],
    resHeap := [{ cliente := 0, habitacion := 0, fecha_entrada := 1, fecha_salida := 2, estado := "Cancelada" },
                { cliente := 0, habitacion := 0, fecha_entrada := 3, fecha_salida := 4, estado := "Activa" },
                { cliente := 0, habitacion := 0, fecha_entrada := 5, fecha_salida := 6, estado := "Activa" }],
    habitaciones := [0], clientes := [0], reservas := [0, 1, 2] }

/-- A benign trace: one room, one client, one booking. -/
def trazaOkC1 : List Op :=
  [ .agregarHabitacion .estandar 101 100,
    .registrarCliente "Ana" "Lopez" "CF1",
    .crearReserva 0 0 1 2 ]

/-- The state `trazaOkC1` reaches. -/
def gOkC1 : GestorHotel :=
  { roomHeap := [habC1],
    clientHeap := [{ nombres := "Ana", apellidos := "Lopez", dpi := "CF1", reservas := [0] }],
    resHeap := [{ cliente := 0, habitacion := 0, fecha_entrada := 1, fecha_salida := 2, estado := "Activa" }],
    habitaciones := [0], clientes := [0], reservas := [0] }

/-- `StandardRoom(101, 100.00)` of the spec scenario. -/
def habEscenario : Habitacion :=
  { numero := 101, tipo := "Estándar", precio_por_noche := 100, disponible := true }

/-- Client `CF1` of the spec scenario. -/
def cliEscenario : Cliente :=
  { nombres := "Ana", apellidos := "Lopez", dpi := "CF1", reservas := [] }

/-- The scenario reservation object. -/
def resEscenario : Reserva :=
  { cliente := 0, habitacion := 0, fecha_entrada := 1, fecha_salida := 2, estado := "Activa" }

/-- One room, one client, one freshly constructed (not yet registered)
reservation. -/
def gEscenario : GestorHotel :=
  { roomHeap := [habEscenario], clientHeap := [cliEscenario], resHeap := [resEscenario],
    habitaciones := [0], clientes := [0], reservas := [] }

/-- The scenario state after the booking succeeded. -/
def gReservado : GestorHotel :=
  { roomHeap := [{ habEscenario with disponible := false }],
    clientHeap := [{ cliEscenario with reservas := [0] }],
    resHeap := [resEscenario],
    habitaciones := [0], clientes := [0], reservas := [0] }

/-- The scenario state with the reservation already cancelled. -/
def gCancelado : GestorHotel :=
  { roomHeap := [habEscenario],
    clientHeap := [{ cliEscenario with reservas := [0] }],
    resHeap := [{ resEscenario with estado := "Cancelada" }],
    habitaciones := [0], clientes := [0], reservas := [0] }

/-- `gReservado` after the room registry entry was removed. -/
def gSinHabitacion : GestorHotel :=
  { gReservado with habitaciones := [] }

/-- Room heap with two rooms that share `numero = 101`. -/
def heapH7 : List Habitacion := [habEscenario, { habEscenario with precio_por_noche := 80 }]

/-- Client heap with two clients that share `dpi = "CF1"`. -/
def heapC7 : List Cliente := [cliEscenario, { cliEscenario with nombres := "Bea" }]

/-- Reservation heap with two reservations on the same (client, room) pair. -/
def heapR7 : List Reserva := [resEscenario, { resEscenario with fecha_entrada := 9 }]

/-! ## Scan characterization lemmas

Each linear scan of the source is characterized by two lemmas: when every
registry entry is skipped the scan returns its not-found result, and when the
registry splits as `pre ++ a :: post` with `pre` all skipped and `a`
matching, the scan acts on `a` and never looks at `post`. -/

theorem modificar_habitacion_go_nada (heap : List Habitacion) (regs : List Nat) (n : Int)
    (p : Rat) (h : ∀ a ∈ regs, habSalta heap n a = true) :
    modificar_habitacion_go heap regs n p = some (heap, false) := by
  induction regs with
  | nil => rfl
  | cons a rest ih =>
    have ha := h a (List.mem_cons_self a rest)
    unfold habSalta at ha
    unfold modificar_habitacion_go
    cases hh : heap[a]? with
    | none => rw [hh] at ha; simp at ha
    | some r =>
      rw [hh] at ha
      have hne : ¬ (r.numero = n) := by simpa using ha
      simp only [hne, if_false]
      exact ih (fun b hb => h b (List.mem_cons_of_mem a hb))

theorem modificar_habitacion_go_primera (heap : List Habitacion) (pre post : List Nat)
    (a : Nat) (r : Habitacion) (n : Int) (p : Rat)
    (hpre : ∀ b ∈ pre, habSalta heap n b = true)
    (hr : heap[a]? = some r) (hn : r.numero = n) :
    modificar_habitacion_go heap (pre ++ a :: post) n p =
      some (heap.set a { r with precio_por_noche := p }, true) := by
  induction pre with
  | nil =>
    unfold modificar_habitacion_go
    simp [hr, hn]
  | cons b rest ih =>
    have hb := hpre b (List.mem_cons_self b rest)
    unfold habSalta at hb
    rw [List.cons_append]
    unfold modificar_habitacion_go
    cases hh : heap[b]? with
    | none => rw [hh] at hb; simp at hb
    | some rb =>
      rw [hh] at hb
      have hne : ¬ (rb.numero = n) := by simpa using hb
      simp only [hne, if_false]
      exact ih (fun c hc => hpre c (List.mem_cons_of_mem b hc))

theorem obtener_habitacion_go_nada (heap : List Habitacion) (regs : List Nat) (n : Int)
    (h : ∀ a ∈ regs, habSalta heap n a = true) :
    obtener_habitacion_go heap regs n = some none := by
  induction regs with
  | nil => rfl
  | cons a rest ih =>
    have ha := h a (List.mem_cons_self a rest)
    unfold habSalta at ha
    unfold obtener_habitacion_go
    cases hh : heap[a]? with
    | none => rw [hh] at ha; simp at ha
    | some r =>
      rw [hh] at ha
      have hne : ¬ (r.numero = n) := by simpa using ha
      simp only [hne, if_false]
      exact ih (fun b hb => h b (List.mem_cons_of_mem a hb))

theorem obtener_habitacion_go_primera (heap : List Habitacion) (pre post : List Nat)
    (a : Nat) (n : Int)
    (hpre : ∀ b ∈ pre, habSalta heap n b = true)
    (ha : habCoincide heap n a = true) :
    obtener_habitacion_go heap (pre ++ a :: post) n = some (some a) := by
  induction pre with
  | nil =>
    unfold habCoincide at ha
    unfold obtener_habitacion_go
    cases hh : heap[a]? with
    | none => rw [hh] at ha; simp at ha
    | some r =>
      rw [hh] at ha
      have hn : r.numero = n := by simpa using ha
      simp [hh, hn]
  | cons b rest ih =>
    have hb := hpre b (List.mem_cons_self b rest)
    unfold habSalta at hb
    rw [List.cons_append]
    unfold obtener_habitacion_go
    cases hh : heap[b]? with
    | none => rw [hh] at hb; simp at hb
    | some rb =>
      rw [hh] at hb
      have hne : ¬ (rb.numero = n) := by simpa using hb
      simp only [hne, if_false]
      exact ih (fun c hc => hpre c (List.mem_cons_of_mem b hc))

theorem eliminar_habitacion_go_filtra (heap : List Habitacion) (regs : List Nat) (n : Int)
    (h : ∀ a ∈ regs, (heap[a]?).isSome = true) :
    eliminar_habitacion_go heap regs n = some (regs.filter (habSalta heap n)) := by
  induction regs with
  | nil => rfl
  | cons a rest ih =>
    have ha := h a (List.mem_cons_self a rest)
    unfold eliminar_habitacion_go
    cases hh : heap[a]? with
    | none => rw [hh] at ha; simp at ha
    | some r =>
      rw [ih (fun b hb => h b (List.mem_cons_of_mem a hb))]
      by_cases hn : r.numero = n
      · have hs : habSalta heap n a = false := by
          unfold habSalta; rw [hh]; simp [hn]
        simp [hn, List.filter_cons, hs]
      · have hs : habSalta heap n a = true := by
          unfold habSalta; rw [hh]; simp [hn]
        simp [hn, List.filter_cons, hs]

theorem consultar_disponibilidad_go_filtra (heap : List Habitacion) (regs : List Nat)
    (h : ∀ a ∈ regs, (heap[a]?).isSome = true) :
    consultar_disponibilidad_go heap regs = some (regs.filter (habDisponible heap)) := by
  induction regs with
  | nil => rfl
  | cons a rest ih =>
    have ha := h a (List.mem_cons_self a rest)
    unfold consultar_disponibilidad_go
    cases hh : heap[a]? with
    | none => rw [hh] at ha; simp at ha
    | some r =>
      rw [ih (fun b hb => h b (List.mem_cons_of_mem a hb))]
      have hd : habDisponible heap a = r.disponible := by
        unfold habDisponible; rw [hh]
      by_cases hb : r.disponible
      · simp [List.filter_cons, hd, hb]
      · simp [List.filter_cons, hd, hb]

theorem actualizar_cliente_go_nada (heap : List Cliente) (regs : List Nat) (d nom ape : String)
    (h : ∀ a ∈ regs, cliSalta heap d a = true) :
    actualizar_cliente_go heap regs d nom ape = some (heap, false) := by
  induction regs with
  | nil => rfl
  | cons a rest ih =>
    have ha := h a (List.mem_cons_self a rest)
    unfold cliSalta at ha
    unfold actualizar_cliente_go
    cases hh : heap[a]? with
    | none => rw [hh] at ha; simp at ha
    | some c =>
      rw [hh] at ha
      have hne : ¬ (c.dpi = d) := by simpa using ha
      simp only [hne, if_false]
      exact ih (fun b hb => h b (List.mem_cons_of_mem a hb))

theorem actualizar_cliente_go_primera (heap : List Cliente) (pre post : List Nat)
    (a : Nat) (c : Cliente) (d nom ape : String)
    (hpre : ∀ b ∈ pre, cliSalta heap d b = true)
    (hc : heap[a]? = some c) (hd : c.dpi = d) :
    actualizar_cliente_go heap (pre ++ a :: post) d nom ape =
      some (heap.set a { c with nombres := nom, apellidos := ape }, true) := by
  induction pre with
  | nil =>
    unfold actualizar_cliente_go
    simp [hc, hd]
  | cons b rest ih =>
    have hb := hpre b (List.mem_cons_self b rest)
    unfold cliSalta at hb
    rw [List.cons_append]
    unfold actualizar_cliente_go
    cases hh : heap[b]? with
    | none => rw [hh] at hb; simp at hb
    | some cb =>
      rw [hh] at hb
      have hne : ¬ (cb.dpi = d) := by simpa using hb
      simp only [hne, if_false]
      exact ih (fun e he => hpre e (List.mem_cons_of_mem b he))

theorem obtener_cliente_go_nada (heap : List Cliente) (regs : List Nat) (d : String)
    (h : ∀ a ∈ regs, cliSalta heap d a = true) :
    obtener_cliente_go heap regs d = some none := by
  induction regs with
  | nil => rfl
  | cons a rest ih =>
    have ha := h a (List.mem_cons_self a rest)
    unfold cliSalta at ha
    unfold obtener_cliente_go
    cases hh : heap[a]? with
    | none => rw [hh] at ha; simp at ha
    | some c =>
      rw [hh] at ha
      have hne : ¬ (c.dpi = d) := by simpa using ha
      simp only [hne, if_false]
      exact ih (fun b hb => h b (List.mem_cons_of_mem a hb))

theorem obtener_cliente_go_primera (heap : List Cliente) (pre post : List Nat)
    (a : Nat) (d : String)
    (hpre : ∀ b ∈ pre, cliSalta heap d b = true)
    (ha : cliCoincide heap d a = true) :
    obtener_cliente_go heap (pre ++ a :: post) d = some (some a) := by
  induction pre with
  | nil =>
    unfold cliCoincide at ha
    unfold obtener_cliente_go
    cases hh : heap[a]? with
    | none => rw [hh] at ha; simp at ha
    | some c =>
      rw [hh] at ha
      have hd : c.dpi = d := by simpa using ha
      simp [hh, hd]
  | cons b rest ih =>
    have hb := hpre b (List.mem_cons_self b rest)
    unfold cliSalta at hb
    rw [List.cons_append]
    unfold obtener_cliente_go
    cases hh : heap[b]? with
    | none => rw [hh] at hb; simp at hb
    | some cb =>
      rw [hh] at hb
      have hne : ¬ (cb.dpi = d) := by simpa using hb
      simp only [hne, if_false]
      exact ih (fun e he => hpre e (List.mem_cons_of_mem b he))


theorem resSalta_elim {resHeap : List Reserva} {cHeap : List Cliente} {rHeap : List Habitacion}
    {d : String} {n : Int} {i : Nat} (h : resSalta resHeap cHeap rHeap d n i = true) :
    ∃ res c, resHeap[i]? = some res ∧ cHeap[res.cliente]? = some c ∧
      (¬ c.dpi = d ∨ ∃ room, rHeap[res.habitacion]? = some room ∧ ¬ room.numero = n) := by
  unfold resSalta at h
  split at h
  · simp at h
  · next res heqr =>
    split at h
    · simp at h
    · next c heqc =>
      split at h
      · next hdpi =>
        split at h
        · simp at h
        · next room heqroom =>
          exact ⟨res, c, heqr, heqc, Or.inr ⟨room, heqroom, by simpa using h⟩⟩
      · next hdpi =>
        exact ⟨res, c, heqr, heqc, Or.inl hdpi⟩

theorem resCoincide_elim {resHeap : List Reserva} {cHeap : List Cliente} {rHeap : List Habitacion}
    {d : String} {n : Int} {i : Nat} (h : resCoincide resHeap cHeap rHeap d n i = true) :
    ∃ res c room, resHeap[i]? = some res ∧ cHeap[res.cliente]? = some c ∧ c.dpi = d ∧
      rHeap[res.habitacion]? = some room ∧ room.numero = n := by
  unfold resCoincide at h
  split at h
  · simp at h
  · next res heqr =>
    split at h
    · simp at h
    · next c heqc =>
      rw [Bool.and_eq_true] at h
      obtain ⟨hdpi, hroom⟩ := h
      split at hroom
      · simp at hroom
      · next room heqroom =>
        exact ⟨res, c, room, heqr, heqc, by simpa using hdpi, heqroom, by simpa using hroom⟩

theorem modificar_reserva_go_paso {resHeap : List Reserva} {cHeap : List Cliente}
    {rHeap : List Habitacion} {d : String} {n : Int} {b : Nat} (rest : List Nat) (fe fs : Int)
    (hb : resSalta resHeap cHeap rHeap d n b = true) :
    modificar_reserva_go resHeap cHeap rHeap (b :: rest) d n fe fs =
      modificar_reserva_go resHeap cHeap rHeap rest d n fe fs := by
  obtain ⟨res, c, heqr, heqc, hcase⟩ := resSalta_elim hb
  conv_lhs => unfold modificar_reserva_go
  simp only [heqr, heqc]
  rcases hcase with hne | ⟨room, heqroom, hnn⟩
  · rw [if_neg hne]
  · by_cases hdpi : c.dpi = d
    · rw [if_pos hdpi]
      simp only [heqroom]
      rw [if_neg hnn]
    · rw [if_neg hdpi]

theorem cancelar_reserva_go_paso {resHeap : List Reserva} {cHeap : List Cliente}
    {rHeap : List Habitacion} {d : String} {n : Int} {b : Nat} (rest : List Nat)
    (hb : resSalta resHeap cHeap rHeap d n b = true) :
    cancelar_reserva_go resHeap cHeap rHeap (b :: rest) d n =
      cancelar_reserva_go resHeap cHeap rHeap rest d n := by
  obtain ⟨res, c, heqr, heqc, hcase⟩ := resSalta_elim hb
  conv_lhs => unfold cancelar_reserva_go
  simp only [heqr, heqc]
  rcases hcase with hne | ⟨room, heqroom, hnn⟩
  · rw [if_neg hne]
  · by_cases hdpi : c.dpi = d
    · rw [if_pos hdpi]
      simp only [heqroom]
      rw [if_neg hnn]
    · rw [if_neg hdpi]

theorem modificar_reserva_go_nada (resHeap : List Reserva) (cHeap : List Cliente)
    (rHeap : List Habitacion) (regs : List Nat) (d : String) (n : Int) (fe fs : Int)
    (h : ∀ i ∈ regs, resSalta resHeap cHeap rHeap d n i = true) :
    modificar_reserva_go resHeap cHeap rHeap regs d n fe fs = some (resHeap, false) := by
  induction regs with
  | nil => rfl
  | cons i rest ih =>
    rw [modificar_reserva_go_paso rest fe fs (h i (List.mem_cons_self i rest))]
    exact ih (fun j hj => h j (List.mem_cons_of_mem i hj))

theorem modificar_reserva_go_primera (resHeap : List Reserva) (cHeap : List Cliente)
    (rHeap : List Habitacion) (pre post : List Nat) (i : Nat) (res : Reserva) (c : Cliente)
    (room : Habitacion) (d : String) (n : Int) (fe fs : Int)
    (hpre : ∀ j ∈ pre, resSalta resHeap cHeap rHeap d n j = true)
    (hres : resHeap[i]? = some res) (hc : cHeap[res.cliente]? = some c) (hd : c.dpi = d)
    (hroom : rHeap[res.habitacion]? = some room) (hn : room.numero = n) :
    modificar_reserva_go resHeap cHeap rHeap (pre ++ i :: post) d n fe fs =
      some (resHeap.set i { res with fecha_entrada := fe, fecha_salida := fs }, true) := by
  induction pre with
  | nil =>
    unfold modificar_reserva_go
    simp [hres, hc, hd, hroom, hn]
  | cons b rest ih =>
    rw [List.cons_append,
      modificar_reserva_go_paso (rest ++ i :: post) fe fs (hpre b (List.mem_cons_self b rest))]
    exact ih (fun j hj => hpre j (List.mem_cons_of_mem b hj))

theorem cancelar_reserva_go_nada (resHeap : List Reserva) (cHeap : List Cliente)
    (rHeap : List Habitacion) (regs : List Nat) (d : String) (n : Int)
    (h : ∀ i ∈ regs, resSalta resHeap cHeap rHeap d n i = true) :
    cancelar_reserva_go resHeap cHeap rHeap regs d n = some (resHeap, rHeap, false) := by
  induction regs with
  | nil => rfl
  | cons i rest ih =>
    rw [cancelar_reserva_go_paso rest (h i (List.mem_cons_self i rest))]
    exact ih (fun j hj => h j (List.mem_cons_of_mem i hj))

theorem cancelar_reserva_go_primera (resHeap : List Reserva) (cHeap : List Cliente)
    (rHeap : List Habitacion) (pre post : List Nat) (i : Nat) (res : Reserva) (c : Cliente)
    (room : Habitacion) (d : String) (n : Int)
    (hpre : ∀ j ∈ pre, resSalta resHeap cHeap rHeap d n j = true)
    (hres : resHeap[i]? = some res) (hc : cHeap[res.cliente]? = some c) (hd : c.dpi = d)
    (hroom : rHeap[res.habitacion]? = some room) (hn : room.numero = n) :
    cancelar_reserva_go resHeap cHeap rHeap (pre ++ i :: post) d n =
      some (resHeap.set i { res with estado := "Cancelada" },
            rHeap.set res.habitacion { room with disponible := true }, true) := by
  induction pre with
  | nil =>
    unfold cancelar_reserva_go
    simp [hres, hc, hd, hroom, hn]
  | cons b rest ih =>
    rw [List.cons_append,
      cancelar_reserva_go_paso (rest ++ i :: post) (hpre b (List.mem_cons_self b rest))]
    exact ih (fun j hj => hpre j (List.mem_cons_of_mem b hj))

/-! ## Generic list helpers -/

theorem find?_descompone {p : Nat → Bool} :
    ∀ {l : List Nat} {a : Nat}, l.find? p = some a →
      ∃ pre post, l = pre ++ a :: post ∧ ∀ b ∈ pre, p b = false := by
  intro l
  induction l with
  | nil => intro a h; simp [List.find?] at h
  | cons x rest ih =>
    intro a h
    rw [List.find?] at h
    by_cases hx : p x
    · rw [hx] at h
      simp only [Option.some.injEq] at h
      exact ⟨[], rest, by simp [h], by simp⟩
    · rw [Bool.not_eq_true] at hx
      rw [hx] at h
      obtain ⟨pre, post, heq, hpre⟩ := ih h
      refine ⟨x :: pre, post, by simp [heq], ?_⟩
      intro b hb
      rcases List.mem_cons.mp hb with hb | hb
      · rw [hb]; exact hx
      · exact hpre b hb

theorem dos_le_length {l : List Nat} {i j : Nat} (hi : i ∈ l) (hj : j ∈ l) (hne : i ≠ j) :
    2 ≤ l.length := by
  induction l with
  | nil => simp at hi
  | cons x rest ih =>
    rcases List.mem_cons.mp hi with hix | hir
    · rcases List.mem_cons.mp hj with hjx | hjr
      · exact absurd (hix.trans hjx.symm) hne
      · have : 1 ≤ rest.length := List.length_pos.mpr (List.ne_nil_of_mem hjr)
        simp only [List.length_cons]
        omega
    · rcases List.mem_cons.mp hj with hjx | hjr
      · have : 1 ≤ rest.length := List.length_pos.mpr (List.ne_nil_of_mem hir)
        simp only [List.length_cons]
        omega
      · have := ih hir hjr
        simp only [List.length_cons]
        omega

/-- With at most one position of `l` satisfying `p`, any two satisfying
members coincide. -/
theorem countP_le_uno_unico {l : List Nat} {p : Nat → Bool} (h : l.countP p ≤ 1)
    {i j : Nat} (hi : i ∈ l) (hpi : p i = true) (hj : j ∈ l) (hpj : p j = true) : i = j := by
  by_contra hne
  have hif : i ∈ l.filter p := List.mem_filter.mpr ⟨hi, hpi⟩
  have hjf : j ∈ l.filter p := List.mem_filter.mpr ⟨hj, hpj⟩
  have h2 : 2 ≤ (l.filter p).length := dos_le_length hif hjf hne
  rw [List.countP_eq_length_filter] at h
  omega

/-- A member satisfying `p` forces a positive count. -/
theorem countP_pos_de_mem {l : List Nat} {p : Nat → Bool} {i : Nat} (hi : i ∈ l)
    (hpi : p i = true) : 1 ≤ l.countP p := by
  have : i ∈ l.filter p := List.mem_filter.mpr ⟨hi, hpi⟩
  have := List.length_pos.mpr (List.ne_nil_of_mem this)
  rw [List.countP_eq_length_filter]
  omega

/-! ## Inversion of the mutating scans

A successful scan either returned `False` leaving the heaps untouched, or
returned `True` after overwriting exactly one registered object. -/

theorem modificar_habitacion_go_inv :
    ∀ {regs : List Nat} {heap heap' : List Habitacion} {n : Int} {p : Rat} {b : Bool},
      modificar_habitacion_go heap regs n p = some (heap', b) →
      (heap' = heap ∧ b = false) ∨
        ∃ a r, a ∈ regs ∧ heap[a]? = some r ∧ r.numero = n ∧
          heap' = heap.set a { r with precio_por_noche := p } ∧ b = true := by
  intro regs
  induction regs with
  | nil =>
    intro heap heap' n p b h
    unfold modificar_habitacion_go at h
    simp only [Option.some.injEq, Prod.mk.injEq] at h
    exact Or.inl ⟨h.1.symm, h.2.symm⟩
  | cons a rest ih =>
    intro heap heap' n p b h
    unfold modificar_habitacion_go at h
    split at h
    · simp at h
    · next r heq =>
      split at h
      · next hn =>
        simp only [Option.some.injEq, Prod.mk.injEq] at h
        exact Or.inr ⟨a, r, List.mem_cons_self a rest, heq, hn, h.1.symm, h.2.symm⟩
      · next hn =>
        rcases ih h with h1 | ⟨a', r', ha', heq', hn', hset, hb⟩
        · exact Or.inl h1
        · exact Or.inr ⟨a', r', List.mem_cons_of_mem a ha', heq', hn', hset, hb⟩

theorem actualizar_cliente_go_inv :
    ∀ {regs : List Nat} {heap heap' : List Cliente} {d nom ape : String} {b : Bool},
      actualizar_cliente_go heap regs d nom ape = some (heap', b) →
      (heap' = heap ∧ b = false) ∨
        ∃ a c, a ∈ regs ∧ heap[a]? = some c ∧ c.dpi = d ∧
          heap' = heap.set a { c with nombres := nom, apellidos := ape } ∧ b = true := by
  intro regs
  induction regs with
  | nil =>
    intro heap heap' d nom ape b h
    unfold actualizar_cliente_go at h
    simp only [Option.some.injEq, Prod.mk.injEq] at h
    exact Or.inl ⟨h.1.symm, h.2.symm⟩
  | cons a rest ih =>
    intro heap heap' d nom ape b h
    unfold actualizar_cliente_go at h
    split at h
    · simp at h
    · next c heq =>
      split at h
      · next hd =>
        simp only [Option.some.injEq, Prod.mk.injEq] at h
        exact Or.inr ⟨a, c, List.mem_cons_self a rest, heq, hd, h.1.symm, h.2.symm⟩
      · next hd =>
        rcases ih h with h1 | ⟨a', c', ha', heq', hd', hset, hb⟩
        · exact Or.inl h1
        · exact Or.inr ⟨a', c', List.mem_cons_of_mem a ha', heq', hd', hset, hb⟩

theorem modificar_reserva_go_inv :
    ∀ {regs : List Nat} {resHeap resHeap' : List Reserva} {cHeap : List Cliente}
      {rHeap : List Habitacion} {d : String} {n : Int} {fe fs : Int} {b : Bool},
      modificar_reserva_go resHeap cHeap rHeap regs d n fe fs = some (resHeap', b) →
      (resHeap' = resHeap ∧ b = false) ∨
        ∃ i res, i ∈ regs ∧ resHeap[i]? = some res ∧
          resHeap' = resHeap.set i { res with fecha_entrada := fe, fecha_salida := fs } ∧
          b = true := by
  intro regs
  induction regs with
  | nil =>
    intro resHeap resHeap' cHeap rHeap d n fe fs b h
    unfold modificar_reserva_go at h
    simp only [Option.some.injEq, Prod.mk.injEq] at h
    exact Or.inl ⟨h.1.symm, h.2.symm⟩
  | cons i rest ih =>
    intro resHeap resHeap' cHeap rHeap d n fe fs b h
    unfold modificar_reserva_go at h
    split at h
    · simp at h
    · next res heqr =>
      split at h
      · simp at h
      · next c heqc =>
        split at h
        · next hd =>
          split at h
          · simp at h
          · next room heqroom =>
            split at h
            · next hn =>
              simp only [Option.some.injEq, Prod.mk.injEq] at h
              exact Or.inr ⟨i, res, List.mem_cons_self i rest, heqr, h.1.symm, h.2.symm⟩
            · next hn =>
              rcases ih h with h1 | ⟨i', res', hi', heq', hset, hb⟩
              · exact Or.inl h1
              · exact Or.inr ⟨i', res', List.mem_cons_of_mem i hi', heq', hset, hb⟩
        · next hd =>
          rcases ih h with h1 | ⟨i', res', hi', heq', hset, hb⟩
          · exact Or.inl h1
          · exact Or.inr ⟨i', res', List.mem_cons_of_mem i hi', heq', hset, hb⟩

theorem cancelar_reserva_go_inv :
    ∀ {regs : List Nat} {resHeap resHeap' : List Reserva} {cHeap : List Cliente}
      {rHeap rHeap' : List Habitacion} {d : String} {n : Int} {b : Bool},
      cancelar_reserva_go resHeap cHeap rHeap regs d n = some (resHeap', rHeap', b) →
      (resHeap' = resHeap ∧ rHeap' = rHeap ∧ b = false) ∨
        ∃ i res room, i ∈ regs ∧ resHeap[i]? = some res ∧
          rHeap[res.habitacion]? = some room ∧
          resHeap' = resHeap.set i { res with estado := "Cancelada" } ∧
          rHeap' = rHeap.set res.habitacion { room with disponible := true } ∧ b = true := by
  intro regs
  induction regs with
  | nil =>
    intro resHeap resHeap' cHeap rHeap rHeap' d n b h
    unfold cancelar_reserva_go at h
    simp only [Option.some.injEq, Prod.mk.injEq] at h
    exact Or.inl ⟨h.1.symm, h.2.1.symm, h.2.2.symm⟩
  | cons i rest ih =>
    intro resHeap resHeap' cHeap rHeap rHeap' d n b h
    unfold cancelar_reserva_go at h
    split at h
    · simp at h
    · next res heqr =>
      split at h
      · simp at h
      · next c heqc =>
        split at h
        · next hd =>
          split at h
          · simp at h
          · next room heqroom =>
            split at h
            · next hn =>
              simp only [Option.some.injEq, Prod.mk.injEq] at h
              exact Or.inr ⟨i, res, room, List.mem_cons_self i rest, heqr, heqroom,
                h.1.symm, h.2.1.symm, h.2.2.symm⟩
            · next hn =>
              rcases ih h with h1 | ⟨i', res', room', hi', heq', heqroom', hs1, hs2, hb⟩
              · exact Or.inl h1
              · exact Or.inr ⟨i', res', room', List.mem_cons_of_mem i hi', heq', heqroom',
                  hs1, hs2, hb⟩
        · next hd =>
          rcases ih h with h1 | ⟨i', res', room', hi', heq', heqroom', hs1, hs2, hb⟩
          · exact Or.inl h1
          · exact Or.inr ⟨i', res', room', List.mem_cons_of_mem i hi', heq', heqroom',
              hs1, hs2, hb⟩

theorem eliminar_habitacion_inv {g g' : GestorHotel} {n : Int}
    (h : eliminar_habitacion g n = some g') :
    ∃ l, g' = { g with habitaciones := l } := by
  unfold eliminar_habitacion at h
  split at h
  · simp at h
  · next l heq =>
    simp only [Option.some.injEq] at h
    exact ⟨l, h.symm⟩

theorem modificar_habitacion_inv {g g' : GestorHotel} {n : Int} {p : Rat} {b : Bool}
    (h : modificar_habitacion g n p = some (g', b)) :
    (g' = g ∧ b = false) ∨
      ∃ a r, a ∈ g.habitaciones ∧ g.roomHeap[a]? = some r ∧ r.numero = n ∧
        g' = { g with roomHeap := g.roomHeap.set a { r with precio_por_noche := p } } ∧
        b = true := by
  unfold modificar_habitacion at h
  split at h
  · simp at h
  · next heap b' heq =>
    simp only [Option.some.injEq, Prod.mk.injEq] at h
    rcases modificar_habitacion_go_inv heq with ⟨h1, h2⟩ | ⟨a, r, ha, hr, hn, hset, hb⟩
    · left
      constructor
      · rw [← h.1, h1]
      · rw [← h.2, h2]
    · right
      exact ⟨a, r, ha, hr, hn, by rw [← h.1, hset], by rw [← h.2, hb]⟩

theorem actualizar_cliente_inv {g g' : GestorHotel} {d nom ape : String} {b : Bool}
    (h : actualizar_cliente g d nom ape = some (g', b)) :
    (g' = g ∧ b = false) ∨
      ∃ a c, a ∈ g.clientes ∧ g.clientHeap[a]? = some c ∧ c.dpi = d ∧
        g' = { g with clientHeap := g.clientHeap.set a { c with nombres := nom, apellidos := ape } } ∧
        b = true := by
  unfold actualizar_cliente at h
  split at h
  · simp at h
  · next heap b' heq =>
    simp only [Option.some.injEq, Prod.mk.injEq] at h
    rcases actualizar_cliente_go_inv heq with ⟨h1, h2⟩ | ⟨a, c, ha, hc, hd, hset, hb⟩
    · left
      constructor
      · rw [← h.1, h1]
      · rw [← h.2, h2]
    · right
      exact ⟨a, c, ha, hc, hd, by rw [← h.1, hset], by rw [← h.2, hb]⟩

theorem modificar_reserva_inv {g g' : GestorHotel} {d : String} {n : Int} {fe fs : Int} {b : Bool}
    (h : modificar_reserva g d n fe fs = some (g', b)) :
    (g' = g ∧ b = false) ∨
      ∃ i res, i ∈ g.reservas ∧ g.resHeap[i]? = some res ∧
        g' = { g with resHeap := g.resHeap.set i { res with fecha_entrada := fe, fecha_salida := fs } } ∧
        b = true := by
  unfold modificar_reserva at h
  split at h
  · simp at h
  · next heap b' heq =>
    simp only [Option.some.injEq, Prod.mk.injEq] at h
    rcases modificar_reserva_go_inv heq with ⟨h1, h2⟩ | ⟨i, res, hi, hres, hset, hb⟩
    · left
      constructor
      · rw [← h.1, h1]
      · rw [← h.2, h2]
    · right
      exact ⟨i, res, hi, hres, by rw [← h.1, hset], by rw [← h.2, hb]⟩

theorem cancelar_reserva_inv {g g' : GestorHotel} {d : String} {n : Int} {b : Bool}
    (h : cancelar_reserva g d n = some (g', b)) :
    (g' = g ∧ b = false) ∨
      ∃ i res room, i ∈ g.reservas ∧ g.resHeap[i]? = some res ∧
        g.roomHeap[res.habitacion]? = some room ∧
        g' = { g with resHeap := g.resHeap.set i { res with estado := "Cancelada" },
                      roomHeap := g.roomHeap.set res.habitacion { room with disponible := true } } ∧
        b = true := by
  unfold cancelar_reserva at h
  split at h
  · simp at h
  · next resHeap roomHeap b' heq =>
    simp only [Option.some.injEq, Prod.mk.injEq] at h
    rcases cancelar_reserva_go_inv heq with ⟨h1, h2, h3⟩ | ⟨i, res, room, hi, hres, hroom, hs1, hs2, hb⟩
    · left
      constructor
      · rw [← h.1, h1, h2]
      · rw [← h.2, h3]
    · right
      exact ⟨i, res, room, hi, hres, hroom, by rw [← h.1, hs1, hs2], by rw [← h.2, hb]⟩

theorem crear_reserva_inv {g g' : GestorHotel} {i : Nat} {b : Bool}
    (h : crear_reserva g i = some (g', b)) :
    ∃ res room, g.resHeap[i]? = some res ∧ g.roomHeap[res.habitacion]? = some room ∧
      ((room.disponible = false ∧ g' = g ∧ b = false) ∨
       (room.disponible = true ∧ ∃ cli, g.clientHeap[res.cliente]? = some cli ∧
         g' = crear_reserva_exito g i res room cli ∧ b = true)) := by
  unfold crear_reserva at h
  split at h
  · simp at h
  · next res heqr =>
    split at h
    · simp at h
    · next room heqroom =>
      split at h
      · next hdisp =>
        split at h
        · simp at h
        · next cli heqc =>
          simp only [Option.some.injEq, Prod.mk.injEq] at h
          exact ⟨res, room, heqr, heqroom, Or.inr ⟨hdisp, cli, heqc,
            by rw [← h.1]; rfl, h.2.symm⟩⟩
      · next hdisp =>
        simp only [Option.some.injEq, Prod.mk.injEq] at h
        exact ⟨res, room, heqr, heqroom, Or.inl ⟨by simpa using hdisp, h.1.symm, h.2.symm⟩⟩

theorem getElem?_cota {α : Type} {l : List α} {i : Nat} {x : α} (h : l[i]? = some x) :
    i < l.length := (List.getElem?_eq_some.mp h).1

theorem getElem?_append_izq {α : Type} {l l' : List α} {i : Nat} {x : α} (h : l[i]? = some x) :
    (l ++ l')[i]? = some x := by
  rw [List.getElem?_append_left (getElem?_cota h)]
  exact h

theorem getElem?_set_mismo {α : Type} {l : List α} {i : Nat} {x y : α} (h : l[i]? = some x) :
    (l.set i y)[i]? = some y :=
  List.getElem?_set_eq_of_lt y (getElem?_cota h)

theorem paso_reservas {g g' : GestorHotel} {op : Op} (hW : InvReservas g)
    (h : aplicarOp g op = some g') : InvReservas g' := by
  cases op with
  | agregarHabitacion t n p =>
    simp only [aplicarOp] at h
    simp only [Option.some.injEq] at h
    subst h
    intro i hi
    obtain ⟨res, hres, hhab, c, hc, hic⟩ := hW i hi
    refine ⟨res, hres, ?_, c, hc, hic⟩
    simp only [agregar_habitacion, List.length_append]
    omega
  | modificarHabitacion n p =>
    simp only [aplicarOp] at h
    split at h
    · simp at h
    · next g1 b heq =>
      simp only [Option.some.injEq] at h
      subst h
      rcases modificar_habitacion_inv heq with ⟨hg, _⟩ | ⟨a, r, _, _, _, hg, _⟩
      · rw [hg]; exact hW
      · subst hg
        intro i hi
        obtain ⟨res, hres, hhab, c, hc, hic⟩ := hW i hi
        refine ⟨res, hres, ?_, c, hc, hic⟩
        simpa [List.length_set] using hhab
  | eliminarHabitacion n =>
    simp only [aplicarOp] at h
    obtain ⟨l, hg⟩ := eliminar_habitacion_inv h
    subst hg
    exact hW
  | registrarCliente nom ape d =>
    simp only [aplicarOp] at h
    simp only [Option.some.injEq] at h
    subst h
    intro i hi
    obtain ⟨res, hres, hhab, c, hc, hic⟩ := hW i hi
    exact ⟨res, hres, hhab, c, getElem?_append_izq hc, hic⟩
  | actualizarCliente d nom ape =>
    simp only [aplicarOp] at h
    split at h
    · simp at h
    · next g1 b heq =>
      simp only [Option.some.injEq] at h
      subst h
      rcases actualizar_cliente_inv heq with ⟨hg, _⟩ | ⟨a, ca, _, hca, _, hg, _⟩
      · rw [hg]; exact hW
      · subst hg
        intro i hi
        obtain ⟨res, hres, hhab, c, hc, hic⟩ := hW i hi
        by_cases hcl : res.cliente = a
        · rw [hcl] at hc
          have hcca : c = ca := by rw [hca] at hc; exact (Option.some.inj hc).symm
          refine ⟨res, hres, hhab, { ca with nombres := nom, apellidos := ape }, ?_, ?_⟩
          · show (g.clientHeap.set a _)[res.cliente]? = _
            rw [hcl]
            exact getElem?_set_mismo hca
          · show i ∈ ca.reservas
            rw [← hcca]
            exact hic
        · refine ⟨res, hres, hhab, c, ?_, hic⟩
          show (g.clientHeap.set a _)[res.cliente]? = some c
          rw [List.getElem?_set_ne (fun hax => hcl hax.symm)]
          exact hc
  | crearReserva ci ri fe fs =>
    simp only [aplicarOp] at h
    split at h
    · simp at h
    · next g2 b heq =>
      simp only [Option.some.injEq] at h
      subst h
      obtain ⟨res, room, hres, hroom, hcase⟩ := crear_reserva_inv heq
      have hres' : res = mkReserva ci ri fe fs := by
        have : (g.resHeap ++ [mkReserva ci ri fe fs])[g.resHeap.length]? =
            some (mkReserva ci ri fe fs) := List.getElem?_concat_length _ _
        rw [show ({ g with resHeap := g.resHeap ++ [mkReserva ci ri fe fs] } :
            GestorHotel).resHeap = g.resHeap ++ [mkReserva ci ri fe fs] from rfl] at hres
        rw [this] at hres
        exact ((Option.some.injEq _ _).mp hres).symm
      rcases hcase with ⟨_, hg, _⟩ | ⟨hdisp, cli, hcli, hg, _⟩
      · subst hg
        intro i hi
        obtain ⟨res0, hres0, hhab0, c0, hc0, hic0⟩ := hW i hi
        exact ⟨res0, getElem?_append_izq hres0, hhab0, c0, hc0, hic0⟩
      · subst hg
        intro i hi
        rcases List.mem_append.mp hi with hi | hi
        · obtain ⟨res0, hres0, hhab0, c0, hc0, hic0⟩ := hW i hi
          refine ⟨res0, getElem?_append_izq hres0, ?_, ?_⟩
          · show res0.habitacion < (g.roomHeap.set res.habitacion _).length
            simpa [List.length_set] using hhab0
          · by_cases hcl : res0.cliente = res.cliente
            · have hc0cli : c0 = cli := by
                rw [hcl] at hc0
                rw [hcli] at hc0
                exact (Option.some.inj hc0).symm
              refine ⟨{ cli with reservas := cli.reservas ++ [g.resHeap.length] }, ?_, ?_⟩
              · show (g.clientHeap.set res.cliente _)[res0.cliente]? = _
                rw [hcl]
                exact getElem?_set_mismo hcli
              · show i ∈ cli.reservas ++ [g.resHeap.length]
                exact List.mem_append_left _ (hc0cli ▸ hic0)
            · refine ⟨c0, ?_, hic0⟩
              show (g.clientHeap.set res.cliente _)[res0.cliente]? = some c0
              rw [List.getElem?_set_ne (fun hax => hcl hax.symm)]
              exact hc0
        · have hi0 : i = g.resHeap.length := by simpa using hi
          subst hi0
          refine ⟨res, ?_, ?_, ?_⟩
          · show (g.resHeap ++ [mkReserva ci ri fe fs])[g.resHeap.length]? = some res
            rw [hres']
            exact List.getElem?_concat_length _ _
          · show res.habitacion < (g.roomHeap.set res.habitacion _).length
            have := getElem?_cota hroom
            simpa [List.length_set] using this
          · refine ⟨{ cli with reservas := cli.reservas ++ [g.resHeap.length] }, ?_, ?_⟩
            · exact getElem?_set_mismo hcli
            · exact List.mem_append_right _ (by simp)
  | modificarReserva d n fe fs =>
    simp only [aplicarOp] at h
    split at h
    · simp at h
    · next g1 b heq =>
      simp only [Option.some.injEq] at h
      subst h
      rcases modificar_reserva_inv heq with ⟨hg, _⟩ | ⟨j, resj, _, hresj, hg, _⟩
      · rw [hg]; exact hW
      · subst hg
        intro i hi
        obtain ⟨res, hres, hhab, c, hc, hic⟩ := hW i hi
        by_cases hij : i = j
        · subst hij
          have hrr : res = resj := by
            rw [hresj] at hres
            exact (Option.some.inj hres).symm
          refine ⟨{ resj with fecha_entrada := fe, fecha_salida := fs }, ?_, ?_, c, ?_, hic⟩
          · exact getElem?_set_mismo hresj
          · show resj.habitacion < g.roomHeap.length
            rw [← hrr]
            exact hhab
          · show g.clientHeap[resj.cliente]? = some c
            rw [← hrr]
            exact hc
        · refine ⟨res, ?_, hhab, c, hc, hic⟩
          show (g.resHeap.set j _)[i]? = some res
          rw [List.getElem?_set_ne (fun hax => hij hax.symm)]
          exact hres
  | cancelarReserva d n =>
    simp only [aplicarOp] at h
    split at h
    · simp at h
    · next g1 b heq =>
      simp only [Option.some.injEq] at h
      subst h
      rcases cancelar_reserva_inv heq with ⟨hg, _⟩ | ⟨j, resj, roomj, _, hresj, hroomj, hg, _⟩
      · rw [hg]; exact hW
      · subst hg
        intro i hi
        obtain ⟨res, hres, hhab, c, hc, hic⟩ := hW i hi
        by_cases hij : i = j
        · subst hij
          have hrr : res = resj := by
            rw [hresj] at hres
            exact (Option.some.inj hres).symm
          refine ⟨{ resj with estado := "Cancelada" }, ?_, ?_, c, ?_, hic⟩
          · exact getElem?_set_mismo hresj
          · show resj.habitacion < (g.roomHeap.set resj.habitacion _).length
            have : resj.habitacion < g.roomHeap.length := by
              rw [← hrr]
              exact hhab
            simpa [List.length_set] using this
          · show g.clientHeap[resj.cliente]? = some c
            rw [← hrr]
            exact hc
        · refine ⟨res, ?_, ?_, c, hc, hic⟩
          · show (g.resHeap.set j _)[i]? = some res
            rw [List.getElem?_set_ne (fun hax => hij hax.symm)]
            exact hres
          · show res.habitacion < (g.roomHeap.set resj.habitacion _).length
            simpa [List.length_set] using hhab

/-! ## Counting helpers for `activasEn` -/

theorem reservaActivaEn_congr {resHeap₂ resHeap₁ : List Reserva} {i a : Nat}
    (h : resHeap₂[i]? = resHeap₁[i]?) :
    reservaActivaEn resHeap₂ i a = reservaActivaEn resHeap₁ i a := by
  unfold reservaActivaEn
  rw [h]

theorem reservaActivaEn_elim {resHeap : List Reserva} {i a : Nat}
    (h : reservaActivaEn resHeap i a = true) :
    ∃ res, resHeap[i]? = some res ∧ res.habitacion = a ∧ res.estado = "Activa" := by
  unfold reservaActivaEn at h
  split at h
  · simp at h
  · next res heq =>
    rw [Bool.and_eq_true] at h
    exact ⟨res, heq, by simpa using h.1, by simpa using h.2⟩

theorem reservaActivaEn_intro {resHeap : List Reserva} {i a : Nat} {res : Reserva}
    (heq : resHeap[i]? = some res) (hhab : res.habitacion = a) (hest : res.estado = "Activa") :
    reservaActivaEn resHeap i a = true := by
  unfold reservaActivaEn
  simp [heq, hhab, hest]

theorem resSalta_de_valida {g : GestorHotel} {i : Nat} (hv : resValida g i)
    {d : String} {n : Int}
    (hnc : resCoincide g.resHeap g.clientHeap g.roomHeap d n i = false) :
    resSalta g.resHeap g.clientHeap g.roomHeap d n i = true := by
  obtain ⟨res, hres, hhab, c, hc, _⟩ := hv
  obtain ⟨room, hroom⟩ : ∃ room, g.roomHeap[res.habitacion]? = some room :=
    ⟨_, List.getElem?_eq_getElem hhab⟩
  unfold resCoincide at hnc
  unfold resSalta
  simp only [hres, hc, hroom] at hnc ⊢
  by_cases hd : c.dpi = d
  · simp only [hd] at hnc
    simp only [decide_True, Bool.true_and] at hnc
    simp only [hd, if_true]
    simp [hnc]
  · simp [hd]

theorem resCoincide_de_partes {resHeap : List Reserva} {cHeap : List Cliente}
    {rHeap : List Habitacion} {d : String} {n : Int} {i : Nat} {res : Reserva} {c : Cliente}
    {room : Habitacion} (hres : resHeap[i]? = some res) (hc : cHeap[res.cliente]? = some c)
    (hd : c.dpi = d) (hroom : rHeap[res.habitacion]? = some room) (hn : room.numero = n) :
    resCoincide resHeap cHeap rHeap d n i = true := by
  unfold resCoincide
  simp [hres, hc, hd, hroom, hn]

theorem countP_congr_eq {l : List Nat} {p q : Nat → Bool} (h : ∀ a ∈ l, p a = q a) :
    l.countP p = l.countP q :=
  List.countP_congr (fun a ha => by rw [h a ha])

theorem paso_activas {g g' : GestorHotel} {op : Op} (hW : InvReservas g) (hA : InvActivas g)
    (hok : opOk g op = true) (h : aplicarOp g op = some g') : InvActivas g' := by
  cases op with
  | agregarHabitacion t n p =>
    simp only [aplicarOp, Option.some.injEq] at h
    subst h
    intro a r hr
    have hr2 : (g.roomHeap ++ [mkHabitacion t n p])[a]? = some r := hr
    by_cases hlt : a < g.roomHeap.length
    · have heqa : (g.roomHeap ++ [mkHabitacion t n p])[a]? = g.roomHeap[a]? :=
        List.getElem?_append_left hlt
      rw [heqa] at hr2
      exact hA a r hr2
    · have hcero : activasEn g a = 0 := by
        apply List.countP_eq_zero.mpr
        intro j hj
        simp only [Bool.not_eq_true]
        by_contra hcontra
        rw [Bool.not_eq_false] at hcontra
        obtain ⟨resj, hresj, hhabj, _⟩ := reservaActivaEn_elim hcontra
        obtain ⟨resj', hresj', hhabj', _⟩ := hW j hj
        rw [hresj'] at hresj
        have heqr : resj = resj' := (Option.some.inj hresj).symm
        rw [heqr] at hhabj
        rw [hhabj] at hhabj'
        exact hlt hhabj'
      refine ⟨fun _ => hcero, ?_⟩
      show activasEn g a ≤ 1
      rw [hcero]
      omega
  | modificarHabitacion n p =>
    simp only [aplicarOp] at h
    split at h
    · simp at h
    · next g1 b heq =>
      simp only [Option.some.injEq] at h
      subst h
      rcases modificar_habitacion_inv heq with ⟨hg, _⟩ | ⟨a0, r0, _, hr0, _, hg, _⟩
      · rw [hg]; exact hA
      · subst hg
        intro a r hr
        have hr2 : (g.roomHeap.set a0 { r0 with precio_por_noche := p })[a]? = some r := hr
        by_cases haa : a = a0
        · subst haa
          rw [getElem?_set_mismo hr0] at hr2
          have hrT : r = { r0 with precio_por_noche := p } := (Option.some.inj hr2).symm
          subst hrT
          exact hA a r0 hr0
        · rw [List.getElem?_set_ne (fun hx => haa hx.symm)] at hr2
          exact hA a r hr2
  | eliminarHabitacion n =>
    simp only [aplicarOp] at h
    obtain ⟨l, hg⟩ := eliminar_habitacion_inv h
    subst hg
    exact hA
  | registrarCliente nom ape d =>
    simp only [aplicarOp, Option.some.injEq] at h
    subst h
    exact hA
  | actualizarCliente d nom ape =>
    simp only [aplicarOp] at h
    split at h
    · simp at h
    · next g1 b heq =>
      simp only [Option.some.injEq] at h
      subst h
      rcases actualizar_cliente_inv heq with ⟨hg, _⟩ | ⟨a0, c0, _, _, _, hg, _⟩
      · rw [hg]; exact hA
      · subst hg
        exact hA
  | crearReserva ci ri fe fs =>
    simp only [aplicarOp] at h
    split at h
    · simp at h
    · next g2 b heq =>
      simp only [Option.some.injEq] at h
      subst h
      obtain ⟨res, room, hres, hroom, hcase⟩ := crear_reserva_inv heq
      have hres2 : (g.resHeap ++ [mkReserva ci ri fe fs])[g.resHeap.length]? = some res := hres
      have hroom2 : g.roomHeap[res.habitacion]? = some room := hroom
      have hres' : res = mkReserva ci ri fe fs := by
        rw [List.getElem?_concat_length] at hres2
        exact (Option.some.inj hres2).symm
      have hpunto : ∀ a, ∀ j ∈ g.reservas,
          reservaActivaEn (g.resHeap ++ [mkReserva ci ri fe fs]) j a =
            reservaActivaEn g.resHeap j a := by
        intro a j hj
        obtain ⟨resj, hresj, _⟩ := hW j hj
        exact reservaActivaEn_congr (by rw [getElem?_append_izq hresj, hresj])
      rcases hcase with ⟨_, hg, _⟩ | ⟨hdisp, cli, hcli, hg, _⟩
      · subst hg
        intro a r hr
        have hr2 : g.roomHeap[a]? = some r := hr
        have hcount : g.reservas.countP
            (fun j => reservaActivaEn (g.resHeap ++ [mkReserva ci ri fe fs]) j a) =
            activasEn g a := countP_congr_eq (fun j hj => hpunto a j hj)
        have hgoal := hA a r hr2
        constructor
        · intro hd
          show g.reservas.countP
            (fun j => reservaActivaEn (g.resHeap ++ [mkReserva ci ri fe fs]) j a) = 0
          rw [hcount]
          exact hgoal.1 hd
        · show g.reservas.countP
            (fun j => reservaActivaEn (g.resHeap ++ [mkReserva ci ri fe fs]) j a) ≤ 1
          rw [hcount]
          exact hgoal.2
      · subst hg
        intro a r hr
        have hriA : res.habitacion = ri := by rw [hres']; rfl
        have hroomg : g.roomHeap[ri]? = some room := by rw [← hriA]; exact hroom2
        have hr2 : (g.roomHeap.set res.habitacion { room with disponible := false })[a]? =
            some r := hr
        have hnuevo : ∀ a, reservaActivaEn (g.resHeap ++ [mkReserva ci ri fe fs])
            g.resHeap.length a = decide (ri = a) := by
          intro a
          unfold reservaActivaEn
          rw [List.getElem?_concat_length]
          simp [mkReserva]
        have hcount : (g.reservas ++ [g.resHeap.length]).countP
            (fun j => reservaActivaEn (g.resHeap ++ [mkReserva ci ri fe fs]) j a) =
            activasEn g a + (if ri = a then 1 else 0) := by
          rw [List.countP_append]
          have h1 : g.reservas.countP (fun j =>
              reservaActivaEn (g.resHeap ++ [mkReserva ci ri fe fs]) j a) = activasEn g a :=
            countP_congr_eq (fun j hj => hpunto a j hj)
          rw [h1]
          congr 1
          rw [List.countP_cons, List.countP_nil]
          rw [hnuevo a]
          by_cases hria : ri = a
          · simp [hria]
          · simp [hria]
        by_cases haA : a = ri
        · subst haA
          rw [hriA] at hr2
          rw [getElem?_set_mismo hroomg] at hr2
          have hrT : r = { room with disponible := false } := (Option.some.inj hr2).symm
          have hcero : activasEn g a = 0 := (hA a room hroomg).1 hdisp
          constructor
          · intro hcontra
            rw [hrT] at hcontra
            simp at hcontra
          · show (g.reservas ++ [g.resHeap.length]).countP
              (fun j => reservaActivaEn (g.resHeap ++ [mkReserva ci a fe fs]) j a) ≤ 1
            rw [hcount, hcero, if_pos rfl]
        · rw [hriA] at hr2
          rw [List.getElem?_set_ne (fun hx => haA hx.symm)] at hr2
          have hgoal := hA a r hr2
          constructor
          · intro hd
            show (g.reservas ++ [g.resHeap.length]).countP
              (fun j => reservaActivaEn (g.resHeap ++ [mkReserva ci ri fe fs]) j a) = 0
            rw [hcount, if_neg (fun hx => haA hx.symm)]
            rw [hgoal.1 hd]
          · show (g.reservas ++ [g.resHeap.length]).countP
              (fun j => reservaActivaEn (g.resHeap ++ [mkReserva ci ri fe fs]) j a) ≤ 1
            rw [hcount, if_neg (fun hx => haA hx.symm)]
            simpa using hgoal.2
  | modificarReserva d n fe fs =>
    simp only [aplicarOp] at h
    split at h
    · simp at h
    · next g1 b heq =>
      simp only [Option.some.injEq] at h
      subst h
      rcases modificar_reserva_inv heq with ⟨hg, _⟩ | ⟨j, resj, _, hresj, hg, _⟩
      · rw [hg]; exact hA
      · subst hg
        intro a r hr
        have hr2 : g.roomHeap[a]? = some r := hr
        have hcount : g.reservas.countP (fun k => reservaActivaEn
            (g.resHeap.set j { resj with fecha_entrada := fe, fecha_salida := fs }) k a) =
            activasEn g a := by
          apply countP_congr_eq
          intro k hk
          by_cases hkj : k = j
          · subst hkj
            have h1 : (g.resHeap.set k { resj with fecha_entrada := fe, fecha_salida := fs })[k]? =
                some { resj with fecha_entrada := fe, fecha_salida := fs } :=
              getElem?_set_mismo hresj
            unfold reservaActivaEn
            rw [h1, hresj]
          · exact reservaActivaEn_congr (by
              rw [List.getElem?_set_ne (fun hx => hkj hx.symm)])
        have hgoal := hA a r hr2
        constructor
        · intro hd
          show g.reservas.countP (fun k => reservaActivaEn
            (g.resHeap.set j { resj with fecha_entrada := fe, fecha_salida := fs }) k a) = 0
          rw [hcount]
          exact hgoal.1 hd
        · show g.reservas.countP (fun k => reservaActivaEn
            (g.resHeap.set j { resj with fecha_entrada := fe, fecha_salida := fs }) k a) ≤ 1
          rw [hcount]
          exact hgoal.2
  | cancelarReserva d n =>
    simp only [aplicarOp] at h
    split at h
    · simp at h
    · next g1 b heq =>
      simp only [Option.some.injEq] at h
      subst h
      cases hfm : primeraReserva g d n with
      | none =>
        have hnc : ∀ i ∈ g.reservas,
            resCoincide g.resHeap g.clientHeap g.roomHeap d n i = false := by
          intro i hi
          have := List.find?_eq_none.mp hfm i hi
          simpa using this
        have hsal : ∀ i ∈ g.reservas,
            resSalta g.resHeap g.clientHeap g.roomHeap d n i = true :=
          fun i hi => resSalta_de_valida (hW i hi) (hnc i hi)
        have hgo := cancelar_reserva_go_nada g.resHeap g.clientHeap g.roomHeap g.reservas d n hsal
        have hcr : cancelar_reserva g d n = some (g, false) := by
          unfold cancelar_reserva
          rw [hgo]
        rw [hcr] at heq
        simp only [Option.some.injEq, Prod.mk.injEq] at heq
        rw [← heq.1]
        exact hA
      | some i =>
        have hcoin : resCoincide g.resHeap g.clientHeap g.roomHeap d n i = true :=
          List.find?_some hfm
        obtain ⟨res, c, room, hres, hc, hdpi, hroom, hn⟩ := resCoincide_elim hcoin
        obtain ⟨pre, post, hdec, hprev⟩ := find?_descompone hfm
        have hiMem : i ∈ g.reservas := by
          rw [hdec]; exact List.mem_append_right _ (List.mem_cons_self _ _)
        have hest : res.estado = "Activa" := by
          simp only [opOk] at hok
          simp only [primeraReserva] at hfm
          simp only [primeraReserva, hfm, hres] at hok
          simpa using hok
        have hsal : ∀ j ∈ pre, resSalta g.resHeap g.clientHeap g.roomHeap d n j = true := by
          intro j hj
          exact resSalta_de_valida (hW j (by rw [hdec]; exact List.mem_append_left _ hj))
            (hprev j hj)
        have hgo := cancelar_reserva_go_primera g.resHeap g.clientHeap g.roomHeap pre post i
          res c room d n hsal hres hc hdpi hroom hn
        have hcr : cancelar_reserva g d n =
            some ({ g with resHeap := g.resHeap.set i { res with estado := "Cancelada" },
                           roomHeap := g.roomHeap.set res.habitacion
                             { room with disponible := true } }, true) := by
          unfold cancelar_reserva
          rw [hdec, hgo]
        rw [hcr] at heq
        simp only [Option.some.injEq, Prod.mk.injEq] at heq
        rw [← heq.1]
        have hActivaI : reservaActivaEn g.resHeap i res.habitacion = true :=
          reservaActivaEn_intro hres rfl hest
        have hle1 : activasEn g res.habitacion ≤ 1 := (hA res.habitacion room hroom).2
        have huniq : ∀ j ∈ g.reservas,
            reservaActivaEn g.resHeap j res.habitacion = true → j = i :=
          fun j hj hpj => countP_le_uno_unico hle1 hj hpj hiMem hActivaI
        have hset_i : ∀ a, reservaActivaEn
            (g.resHeap.set i { res with estado := "Cancelada" }) i a = false := by
          intro a
          unfold reservaActivaEn
          rw [getElem?_set_mismo hres]
          simp
        have hset_ne : ∀ j, j ≠ i → ∀ a, reservaActivaEn
            (g.resHeap.set i { res with estado := "Cancelada" }) j a =
            reservaActivaEn g.resHeap j a := by
          intro j hji a
          exact reservaActivaEn_congr (by rw [List.getElem?_set_ne (fun hx => hji hx.symm)])
        intro a r' hr'
        have hr2 : (g.roomHeap.set res.habitacion { room with disponible := true })[a]? =
            some r' := hr'
        by_cases haA : a = res.habitacion
        · subst haA
          rw [getElem?_set_mismo hroom] at hr2
          have hcero : g.reservas.countP (fun j =>
              reservaActivaEn (g.resHeap.set i { res with estado := "Cancelada" })
                j res.habitacion) = 0 := by
            apply List.countP_eq_zero.mpr
            intro j hj
            simp only [Bool.not_eq_true]
            by_cases hji : j = i
            · rw [hji]; exact hset_i res.habitacion
            · rw [hset_ne j hji]
              by_contra hcontra
              rw [Bool.not_eq_false] at hcontra
              exact hji (huniq j hj hcontra)
          constructor
          · intro _
            exact hcero
          · show g.reservas.countP (fun j =>
              reservaActivaEn (g.resHeap.set i { res with estado := "Cancelada" })
                j res.habitacion) ≤ 1
            rw [hcero]
            omega
        · rw [List.getElem?_set_ne (fun hx => haA hx.symm)] at hr2
          have hcount : g.reservas.countP (fun j =>
              reservaActivaEn (g.resHeap.set i { res with estado := "Cancelada" }) j a) =
              activasEn g a := by
            apply countP_congr_eq
            intro k hk
            by_cases hki : k = i
            · subst hki
              rw [hset_i a]
              have hfalso : reservaActivaEn g.resHeap k a = false := by
                unfold reservaActivaEn
                rw [hres]
                have hne2 : ¬ (res.habitacion = a) := fun hx => haA hx.symm
                simp [hne2]
              rw [hfalso]
            · exact hset_ne k hki a
          have hgoal := hA a r' hr2
          constructor
          · intro hd
            show g.reservas.countP (fun j =>
              reservaActivaEn (g.resHeap.set i { res with estado := "Cancelada" }) j a) = 0
            rw [hcount]
            exact hgoal.1 hd
          · show g.reservas.countP (fun j =>
              reservaActivaEn (g.resHeap.set i { res with estado := "Cancelada" }) j a) ≤ 1
            rw [hcount]
            exact hgoal.2

theorem correrDesde_reservas :
    ∀ {ops : List Op} {g g' : GestorHotel}, InvReservas g →
      correrDesde g ops = some g' → InvReservas g' := by
  intro ops
  induction ops with
  | nil =>
    intro g g' hW h
    unfold correrDesde at h
    simp only [Option.some.injEq] at h
    rw [← h]
    exact hW
  | cons op rest ih =>
    intro g g' hW h
    unfold correrDesde at h
    split at h
    · simp at h
    · next g1 heq => exact ih (paso_reservas hW heq) h

theorem invReservas_inicial : InvReservas gestorInicial := by
  intro i hi
  simp [gestorInicial] at hi

theorem invActivas_inicial : InvActivas gestorInicial := by
  intro a r hr
  simp [gestorInicial] at hr

theorem correr_reservas {ops : List Op} {g : GestorHotel} (h : correr ops = some g) :
    InvReservas g :=
  correrDesde_reservas invReservas_inicial h

theorem correrDesde_activas :
    ∀ {ops : List Op} {g g' : GestorHotel}, InvReservas g → InvActivas g →
      trazaOk g ops = true → correrDesde g ops = some g' → InvActivas g' := by
  intro ops
  induction ops with
  | nil =>
    intro g g' _ hA _ h
    unfold correrDesde at h
    simp only [Option.some.injEq] at h
    rw [← h]
    exact hA
  | cons op rest ih =>
    intro g g' hW hA htr h
    unfold correrDesde at h
    split at h
    · simp at h
    · next g1 heq =>
      unfold trazaOk at htr
      rw [Bool.and_eq_true] at htr
      have hok := htr.1
      have htr2 : trazaOk g1 rest = true := by
        have h2 := htr.2
        simp only [heq] at h2
        exact h2
      exact ih (paso_reservas hW heq) (paso_activas hW hA hok heq) htr2 h

/-! ## Top-level computation lemmas and small eliminations -/

theorem habCoincide_elim {heap : List Habitacion} {n : Int} {a : Nat}
    (h : habCoincide heap n a = true) :
    ∃ r, heap[a]? = some r ∧ r.numero = n := by
  unfold habCoincide at h
  split at h
  · simp at h
  · next r heq => exact ⟨r, heq, by simpa using h⟩

theorem cliCoincide_elim {heap : List Cliente} {d : String} {a : Nat}
    (h : cliCoincide heap d a = true) :
    ∃ c, heap[a]? = some c ∧ c.dpi = d := by
  unfold cliCoincide at h
  split at h
  · simp at h
  · next c heq => exact ⟨c, heq, by simpa using h⟩

theorem habSalta_de_valida {heap : List Habitacion} {n : Int} {a : Nat}
    (hv : (heap[a]?).isSome = true) (hnc : habCoincide heap n a = false) :
    habSalta heap n a = true := by
  obtain ⟨r, hr⟩ := Option.isSome_iff_exists.mp hv
  unfold habCoincide at hnc
  unfold habSalta
  simp only [hr] at hnc ⊢
  simpa using hnc

theorem resSalta_intro_dpi {resHeap : List Reserva} {cHeap : List Cliente}
    {rHeap : List Habitacion} {d : String} {n : Int} {i : Nat} {res : Reserva} {c : Cliente}
    (hres : resHeap[i]? = some res) (hc : cHeap[res.cliente]? = some c)
    (hd : ¬ c.dpi = d) : resSalta resHeap cHeap rHeap d n i = true := by
  unfold resSalta
  simp [hres, hc, hd]

theorem resSalta_intro_numero {resHeap : List Reserva} {cHeap : List Cliente}
    {rHeap : List Habitacion} {d : String} {n : Int} {i : Nat} {res : Reserva} {c : Cliente}
    {room : Habitacion} (hres : resHeap[i]? = some res) (hc : cHeap[res.cliente]? = some c)
    (hroom : rHeap[res.habitacion]? = some room) (hn : ¬ room.numero = n) :
    resSalta resHeap cHeap rHeap d n i = true := by
  unfold resSalta
  by_cases hd : c.dpi = d
  · simp [hres, hc, hd, hroom, hn]
  · simp [hres, hc, hd]

theorem cancelar_reserva_eq_nada {g : GestorHotel} {d : String} {n : Int}
    (hsal : ∀ i ∈ g.reservas, resSalta g.resHeap g.clientHeap g.roomHeap d n i = true) :
    cancelar_reserva g d n = some (g, false) := by
  unfold cancelar_reserva
  rw [cancelar_reserva_go_nada g.resHeap g.clientHeap g.roomHeap g.reservas d n hsal]

theorem cancelar_reserva_eq_primera {g : GestorHotel} {pre post : List Nat} {i : Nat}
    {res : Reserva} {c : Cliente} {room : Habitacion} {d : String} {n : Int}
    (hdec : g.reservas = pre ++ i :: post)
    (hsal : ∀ j ∈ pre, resSalta g.resHeap g.clientHeap g.roomHeap d n j = true)
    (hres : g.resHeap[i]? = some res) (hc : g.clientHeap[res.cliente]? = some c)
    (hd : c.dpi = d) (hroom : g.roomHeap[res.habitacion]? = some room)
    (hn : room.numero = n) :
    cancelar_reserva g d n =
      some ({ g with resHeap := g.resHeap.set i { res with estado := "Cancelada" },
                     roomHeap := g.roomHeap.set res.habitacion
                       { room with disponible := true } }, true) := by
  unfold cancelar_reserva
  rw [hdec, cancelar_reserva_go_primera g.resHeap g.clientHeap g.roomHeap pre post i
    res c room d n hsal hres hc hd hroom hn]

theorem modificar_reserva_eq_nada {g : GestorHotel} {d : String} {n : Int} {fe fs : Int}
    (hsal : ∀ i ∈ g.reservas, resSalta g.resHeap g.clientHeap g.roomHeap d n i = true) :
    modificar_reserva g d n fe fs = some (g, false) := by
  unfold modificar_reserva
  rw [modificar_reserva_go_nada g.resHeap g.clientHeap g.roomHeap g.reservas d n fe fs hsal]

theorem modificar_reserva_eq_primera {g : GestorHotel} {pre post : List Nat} {i : Nat}
    {res : Reserva} {c : Cliente} {room : Habitacion} {d : String} {n : Int} (fe fs : Int)
    (hdec : g.reservas = pre ++ i :: post)
    (hsal : ∀ j ∈ pre, resSalta g.resHeap g.clientHeap g.roomHeap d n j = true)
    (hres : g.resHeap[i]? = some res) (hc : g.clientHeap[res.cliente]? = some c)
    (hd : c.dpi = d) (hroom : g.roomHeap[res.habitacion]? = some room)
    (hn : room.numero = n) :
    modificar_reserva g d n fe fs =
      some ({ g with resHeap := g.resHeap.set i { res with fecha_entrada := fe, fecha_salida := fs } }, true) := by
  unfold modificar_reserva
  rw [hdec, modificar_reserva_go_primera g.resHeap g.clientHeap g.roomHeap pre post i
    res c room d n fe fs hsal hres hc hd hroom hn]

theorem modificar_habitacion_eq_nada {g : GestorHotel} {n : Int} {p : Rat}
    (hsal : ∀ a ∈ g.habitaciones, habSalta g.roomHeap n a = true) :
    modificar_habitacion g n p = some (g, false) := by
  unfold modificar_habitacion
  rw [modificar_habitacion_go_nada g.roomHeap g.habitaciones n p hsal]

theorem modificar_habitacion_eq_primera {g : GestorHotel} {pre post : List Nat} {a : Nat}
    {r : Habitacion} {n : Int} {p : Rat}
    (hdec : g.habitaciones = pre ++ a :: post)
    (hsal : ∀ b ∈ pre, habSalta g.roomHeap n b = true)
    (hr : g.roomHeap[a]? = some r) (hn : r.numero = n) :
    modificar_habitacion g n p =
      some ({ g with roomHeap := g.roomHeap.set a { r with precio_por_noche := p } }, true) := by
  unfold modificar_habitacion
  rw [hdec, modificar_habitacion_go_primera g.roomHeap pre post a r n p hsal hr hn]

theorem resSalta_preservada {g : GestorHotel} {i : Nat} {res : Reserva} {room : Habitacion}
    {cli : Cliente} (hroom : g.roomHeap[res.habitacion]? = some room)
    (hcli : g.clientHeap[res.cliente]? = some cli)
    {d : String} {n : Int} {j : Nat}
    (hs : resSalta g.resHeap g.clientHeap g.roomHeap d n j = true) :
    resSalta g.resHeap
      (g.clientHeap.set res.cliente { cli with reservas := cli.reservas ++ [i] })
      (g.roomHeap.set res.habitacion { room with disponible := false }) d n j = true := by
  obtain ⟨resj, cj, hresj, hcj, hcase⟩ := resSalta_elim hs
  obtain ⟨cx, hcx, hdx⟩ : ∃ cx,
      (g.clientHeap.set res.cliente
        { cli with reservas := cli.reservas ++ [i] })[resj.cliente]? = some cx ∧
      cx.dpi = cj.dpi := by
    by_cases hjc : resj.cliente = res.cliente
    · rw [hjc]
      refine ⟨_, getElem?_set_mismo hcli, ?_⟩
      rw [hjc] at hcj
      rw [hcli] at hcj
      have hcc : cj = cli := (Option.some.inj hcj).symm
      rw [hcc]
    · exact ⟨cj, by rw [List.getElem?_set_ne (fun hx => hjc hx.symm)]; exact hcj, rfl⟩
  rcases hcase with hne | ⟨roomj, hroomj, hnn⟩
  · exact resSalta_intro_dpi hresj hcx (by rw [hdx]; exact hne)
  · obtain ⟨rx, hrx, hnx⟩ : ∃ rx,
        (g.roomHeap.set res.habitacion
          { room with disponible := false })[resj.habitacion]? = some rx ∧
        rx.numero = roomj.numero := by
      by_cases hjh : resj.habitacion = res.habitacion
      · rw [hjh]
        refine ⟨_, getElem?_set_mismo hroom, ?_⟩
        rw [hjh] at hroomj
        rw [hroom] at hroomj
        have hrr : roomj = room := (Option.some.inj hroomj).symm
        rw [hrr]
      · exact ⟨roomj, by rw [List.getElem?_set_ne (fun hx => hjh hx.symm)]; exact hroomj, rfl⟩
    exact resSalta_intro_numero hresj hcx hrx (by rw [hnx]; exact hnn)

/-! ## Claim theorems -/

/-- Claim C2: `book_room` (`crear_reserva`) succeeds exactly when the
reservation's room has `disponible = true`; on success it flips that flag to
false and appends the reservation both to the global registry and to the
owning client's own sequence (the state `crear_reserva_exito`); on failure it
returns the state unchanged.  In particular, booking any reservation on the
same room a second time without cancelling fails and leaves the new state
unchanged (so room and reservation counts are unchanged). -/
theorem C2_crear_reserva (g : GestorHotel) (i : Nat) (res : Reserva) (room : Habitacion)
    (cli : Cliente) (hres : g.resHeap[i]? = some res)
    (hroom : g.roomHeap[res.habitacion]? = some room)
    (hcli : g.clientHeap[res.cliente]? = some cli) :
    crear_reserva g i =
      (if room.disponible then some (crear_reserva_exito g i res room cli, true)
       else some (g, false)) ∧
    ((∃ g', crear_reserva g i = some (g', true)) ↔ room.disponible = true) ∧
    (room.disponible = true →
      ∀ j res', (crear_reserva_exito g i res room cli).resHeap[j]? = some res' →
        res'.habitacion = res.habitacion →
        crear_reserva (crear_reserva_exito g i res room cli) j =
          some (crear_reserva_exito g i res room cli, false)) := by
  have h1 : crear_reserva g i =
      (if room.disponible then some (crear_reserva_exito g i res room cli, true)
       else some (g, false)) := by
    unfold crear_reserva
    simp only [hres, hroom]
    cases hdisp : room.disponible with
    | true =>
      simp only [hcli]
      rfl
    | false => rfl
  refine ⟨h1, ?_, ?_⟩
  · constructor
    · rintro ⟨g', hg'⟩
      by_contra hdisp
      rw [Bool.not_eq_true] at hdisp
      rw [h1, hdisp] at hg'
      simp at hg'
    · intro hdisp
      rw [h1, hdisp]
      exact ⟨crear_reserva_exito g i res room cli, by simp⟩
  · intro hdisp j res' hres' hhab'
    unfold crear_reserva
    have hres2 : (crear_reserva_exito g i res room cli).resHeap[j]? = some res' := hres'
    simp only [hres2]
    have hroom2 : (crear_reserva_exito g i res room cli).roomHeap[res'.habitacion]? =
        some { room with disponible := false } := by
      show (g.roomHeap.set res.habitacion
        { room with disponible := false })[res'.habitacion]? = _
      rw [hhab']
      exact getElem?_set_mismo hroom
    simp only [hroom2]
    rfl

/-- Claim C2 witness: the spec scenario state, booking the reservation at
address 0 whose room is available. -/
theorem C2_testigo :
    crear_reserva gEscenario 0 =
      (if habEscenario.disponible
       then some (crear_reserva_exito gEscenario 0 resEscenario habEscenario cliEscenario, true)
       else some (gEscenario, false)) :=
  (C2_crear_reserva gEscenario 0 resEscenario habEscenario cliEscenario (by decide) (by decide)
    (by decide)).1

/-- Claim C6: `list_available_rooms` (`consultar_disponibilidad`) returns
exactly the registered rooms whose `disponible` flag is true (as the filter
of the registry, preserving order and multiplicity), and the two date-range
parameters have no effect: two calls with different ranges on the same state
return identical results. -/
theorem C6_consultar_disponibilidad (g : GestorHotel) (f1 f2 f3 f4 : Int)
    (hscan : ∀ a ∈ g.habitaciones, (g.roomHeap[a]?).isSome = true) :
    consultar_disponibilidad g f1 f2 =
      some (g.habitaciones.filter (habDisponible g.roomHeap)) ∧
    consultar_disponibilidad g f1 f2 = consultar_disponibilidad g f3 f4 := by
  constructor
  · unfold consultar_disponibilidad
    exact consultar_disponibilidad_go_filtra g.roomHeap g.habitaciones hscan
  · rfl

/-- Claim C6 witness: the scenario state queried with two different date
ranges. -/
theorem C6_testigo :
    consultar_disponibilidad gEscenario 1 2 =
      some (gEscenario.habitaciones.filter (habDisponible gEscenario.roomHeap)) ∧
    consultar_disponibilidad gEscenario 1 2 = consultar_disponibilidad gEscenario 30 40 :=
  C6_consultar_disponibilidad gEscenario 1 2 30 40 (by decide)

/-- Claim C8: `remove_room` (`eliminar_habitacion`) filters the registry,
removing every room whose `numero` equals the argument (duplicates
included), and is a no-op when no registered room carries that number.  Its
return type carries no success flag, so no success/failure distinction is
reported. -/
theorem C8_eliminar_habitacion (g : GestorHotel) (n : Int)
    (hscan : ∀ a ∈ g.habitaciones, (g.roomHeap[a]?).isSome = true) :
    eliminar_habitacion g n =
      some { g with habitaciones := g.habitaciones.filter (habSalta g.roomHeap n) } ∧
    ((∀ a ∈ g.habitaciones, habCoincide g.roomHeap n a = false) →
      eliminar_habitacion g n = some g) := by
  have h1 : eliminar_habitacion g n =
      some { g with habitaciones := g.habitaciones.filter (habSalta g.roomHeap n) } := by
    unfold eliminar_habitacion
    rw [eliminar_habitacion_go_filtra g.roomHeap g.habitaciones n hscan]
  refine ⟨h1, ?_⟩
  intro hnc
  rw [h1]
  have hfil : g.habitaciones.filter (habSalta g.roomHeap n) = g.habitaciones :=
    List.filter_eq_self.mpr (fun a ha => habSalta_de_valida (hscan a ha) (hnc a ha))
  rw [hfil]

/-- Claim C8 witness: removing room number 101 from the scenario state
deletes the single matching registry entry. -/
theorem C8_testigo :
    eliminar_habitacion gEscenario 101 =
      some { gEscenario with
        habitaciones := gEscenario.habitaciones.filter (habSalta gEscenario.roomHeap 101) } :=
  (C8_eliminar_habitacion gEscenario 101 (by decide)).1

theorem habSalta_elim {heap : List Habitacion} {n : Int} {a : Nat}
    (h : habSalta heap n a = true) : ∃ r, heap[a]? = some r ∧ ¬ r.numero = n := by
  unfold habSalta at h
  split at h
  · simp at h
  · next r heq => exact ⟨r, heq, by simpa using h⟩

theorem habSalta_congr {heap₂ heap₁ : List Habitacion} {n : Int} {a : Nat}
    (h : heap₂[a]? = heap₁[a]?) : habSalta heap₂ n a = habSalta heap₁ n a := by
  unfold habSalta
  rw [h]

theorem habCoincide_intro {heap : List Habitacion} {n : Int} {a : Nat} {r : Habitacion}
    (h : heap[a]? = some r) (hn : r.numero = n) : habCoincide heap n a = true := by
  unfold habCoincide
  simp [h, hn]

/-- Claim C4: `update_room_price` (`modificar_habitacion`) fails — returning
`False` with the state unchanged — exactly when no registered room has the
given number; on success a subsequent `find_room` (`obtener_habitacion`)
returns a room whose `precio_por_noche` equals the new price exactly (no
validation of the price, negative values included). -/
theorem C4_modificar_habitacion (g : GestorHotel) (n : Int) (p : Rat)
    (hscan : ∀ a ∈ g.habitaciones, (g.roomHeap[a]?).isSome = true) :
    (modificar_habitacion g n p = some (g, false) ↔
      ∀ a ∈ g.habitaciones, habCoincide g.roomHeap n a = false) ∧
    (∀ g', modificar_habitacion g n p = some (g', true) →
      ∃ a r, obtener_habitacion g' n = some (some a) ∧ g'.roomHeap[a]? = some r ∧
        r.precio_por_noche = p ∧ r.numero = n) := by
  constructor
  · constructor
    · intro h a ha
      by_contra hca
      rw [Bool.not_eq_false] at hca
      cases hf : g.habitaciones.find? (habCoincide g.roomHeap n) with
      | none => exact absurd hca (by simpa using List.find?_eq_none.mp hf a ha)
      | some a0 =>
        obtain ⟨pre, post, hdec, hpref⟩ := find?_descompone hf
        obtain ⟨r0, hr0, hn0⟩ := habCoincide_elim (List.find?_some hf)
        have hsal : ∀ b ∈ pre, habSalta g.roomHeap n b = true := fun b hb =>
          habSalta_de_valida (hscan b (by rw [hdec]; exact List.mem_append_left _ hb))
            (hpref b hb)
        have hcomp := modificar_habitacion_eq_primera (p := p) hdec hsal hr0 hn0
        rw [h] at hcomp
        simp at hcomp
    · intro hall
      apply modificar_habitacion_eq_nada
      intro a ha
      exact habSalta_de_valida (hscan a ha) (hall a ha)
  · intro g' hg'
    cases hf : g.habitaciones.find? (habCoincide g.roomHeap n) with
    | none =>
      have hall : ∀ a ∈ g.habitaciones, habCoincide g.roomHeap n a = false := by
        intro a ha
        simpa using List.find?_eq_none.mp hf a ha
      have hnada := modificar_habitacion_eq_nada (p := p) (n := n)
        (fun a ha => habSalta_de_valida (hscan a ha) (hall a ha))
      rw [hg'] at hnada
      simp at hnada
    | some a0 =>
      obtain ⟨pre, post, hdec, hpref⟩ := find?_descompone hf
      obtain ⟨r0, hr0, hn0⟩ := habCoincide_elim (List.find?_some hf)
      have hsal : ∀ b ∈ pre, habSalta g.roomHeap n b = true := fun b hb =>
        habSalta_de_valida (hscan b (by rw [hdec]; exact List.mem_append_left _ hb))
          (hpref b hb)
      have hcomp := modificar_habitacion_eq_primera (p := p) hdec hsal hr0 hn0
      rw [hg'] at hcomp
      simp only [Option.some.injEq, Prod.mk.injEq] at hcomp
      have hgeq : g' = { g with roomHeap := g.roomHeap.set a0 { r0 with precio_por_noche := p } } :=
        hcomp.1
      subst hgeq
      refine ⟨a0, { r0 with precio_por_noche := p }, ?_, ?_, rfl, hn0⟩
      · show obtener_habitacion_go (g.roomHeap.set a0 { r0 with precio_por_noche := p })
          g.habitaciones n = some (some a0)
        rw [hdec]
        apply obtener_habitacion_go_primera
        · intro b hb
          obtain ⟨rb, hrb, hnb⟩ := habSalta_elim (hsal b hb)
          have hbne : a0 ≠ b := by
            intro hba
            rw [← hba, hr0] at hrb
            exact hnb (by rw [← (Option.some.inj hrb)]; exact hn0)
          rw [habSalta_congr (List.getElem?_set_ne hbne)]
          exact hsal b hb
        · exact habCoincide_intro (getElem?_set_mismo hr0) hn0
      · exact getElem?_set_mismo hr0

/-- Claim C4 witness: updating room 101 of the scenario state to price 50;
`find_room` then returns the room at that exact price. -/
theorem C4_testigo :
    ∃ a r, obtener_habitacion
        { gEscenario with roomHeap := [{ habEscenario with precio_por_noche := 50 }] } 101 =
        some (some a) ∧
      ({ gEscenario with roomHeap := [{ habEscenario with precio_por_noche := 50 }]} :
        GestorHotel).roomHeap[a]? = some r ∧
      r.precio_por_noche = 50 ∧ r.numero = 101 :=
  (C4_modificar_habitacion gEscenario 101 50 (by decide)).2
    { gEscenario with roomHeap := [{ habEscenario with precio_por_noche := 50 }] } (by decide)

/-- Claim C5: `update_reservation_dates` (`modificar_reserva`) overwrites
both dates of the first registered reservation whose (client dpi, room
number) pair matches — with no check of its status, so a Cancelled
reservation is modified all the same — and returns success; when no
registered reservation matches it returns `False` with the state unchanged. -/
theorem C5_modificar_reserva (g : GestorHotel) (d : String) (n : Int) (fe fs : Int)
    (hscan : ∀ i ∈ g.reservas, resSalta g.resHeap g.clientHeap g.roomHeap d n i = true ∨
      resCoincide g.resHeap g.clientHeap g.roomHeap d n i = true) :
    (modificar_reserva g d n fe fs = some (g, false) ↔
      ∀ i ∈ g.reservas, resCoincide g.resHeap g.clientHeap g.roomHeap d n i = false) ∧
    (∀ pre i post res c room, g.reservas = pre ++ i :: post →
      (∀ j ∈ pre, resCoincide g.resHeap g.clientHeap g.roomHeap d n j = false) →
      g.resHeap[i]? = some res → g.clientHeap[res.cliente]? = some c → c.dpi = d →
      g.roomHeap[res.habitacion]? = some room → room.numero = n →
      modificar_reserva g d n fe fs =
        some ({ g with resHeap := g.resHeap.set i { res with fecha_entrada := fe, fecha_salida := fs } }, true)) := by
  have hsalta_de : ∀ j ∈ g.reservas,
      resCoincide g.resHeap g.clientHeap g.roomHeap d n j = false →
      resSalta g.resHeap g.clientHeap g.roomHeap d n j = true := by
    intro j hj hcj
    rcases hscan j hj with hs | hc
    · exact hs
    · rw [hc] at hcj; simp at hcj
  constructor
  · constructor
    · intro h i hi
      by_contra hci
      rw [Bool.not_eq_false] at hci
      cases hf : g.reservas.find? (resCoincide g.resHeap g.clientHeap g.roomHeap d n) with
      | none => exact absurd hci (by simpa using List.find?_eq_none.mp hf i hi)
      | some i0 =>
        obtain ⟨pre, post, hdec, hpref⟩ := find?_descompone hf
        obtain ⟨res, c, room, hres, hc, hdpi, hroom, hn⟩ :=
          resCoincide_elim (List.find?_some hf)
        have hsal : ∀ j ∈ pre, resSalta g.resHeap g.clientHeap g.roomHeap d n j = true :=
          fun j hj => hsalta_de j (by rw [hdec]; exact List.mem_append_left _ hj) (hpref j hj)
        have hcomp := modificar_reserva_eq_primera fe fs hdec hsal hres hc
          hdpi hroom hn
        rw [h] at hcomp
        simp at hcomp
    · intro hall
      exact modificar_reserva_eq_nada (fun i hi => hsalta_de i hi (hall i hi))
  · intro pre i post res c room hdec hpref hres hc hdpi hroom hn
    have hsal : ∀ j ∈ pre, resSalta g.resHeap g.clientHeap g.roomHeap d n j = true :=
      fun j hj => hsalta_de j (by rw [hdec]; exact List.mem_append_left _ hj) (hpref j hj)
    exact modificar_reserva_eq_primera fe fs hdec hsal hres hc hdpi hroom hn

/-- Claim C5 witness: the dates of the already-cancelled scenario reservation
are overwritten and the call reports success. -/
theorem C5_testigo :
    modificar_reserva gCancelado "CF1" 101 7 8 =
      some ({ gCancelado with resHeap := gCancelado.resHeap.set 0 { { resEscenario with estado := "Cancelada" } with fecha_entrada := 7, fecha_salida := 8 } }, true) :=
  (C5_modificar_reserva gCancelado "CF1" 101 7 8 (by decide)).2 [] 0 []
    { resEscenario with estado := "Cancelada" } { cliEscenario with reservas := [0] }
    habEscenario (by decide) (by decide) (by decide) (by decide) (by decide) (by decide)
    (by decide)

/-- Claim C3: `cancel_reservation` (`cancelar_reserva`) returns `False` with
the state unchanged exactly when no registered reservation matches the
(dpi, room number) pair; otherwise it takes the first match in insertion
order — with no check of its current status, so an already-cancelled
reservation is "cancelled" again all the same, and the room is re-opened —
sets its `estado` to `"Cancelada"`, sets that reservation's room's
`disponible` to true, and returns `True`.  Third conjunct: after a
successful `crear_reserva` the room's flag is false, and a subsequent
`cancelar_reserva` reaching that booking re-sets it to true. -/
theorem C3_cancelar_reserva (g : GestorHotel) (d : String) (n : Int)
    (hscan : ∀ i ∈ g.reservas, resSalta g.resHeap g.clientHeap g.roomHeap d n i = true ∨
      resCoincide g.resHeap g.clientHeap g.roomHeap d n i = true) :
    (cancelar_reserva g d n = some (g, false) ↔
      ∀ i ∈ g.reservas, resCoincide g.resHeap g.clientHeap g.roomHeap d n i = false) ∧
    (∀ pre i post res c room, g.reservas = pre ++ i :: post →
      (∀ j ∈ pre, resCoincide g.resHeap g.clientHeap g.roomHeap d n j = false) →
      g.resHeap[i]? = some res → g.clientHeap[res.cliente]? = some c → c.dpi = d →
      g.roomHeap[res.habitacion]? = some room → room.numero = n →
      cancelar_reserva g d n =
        some ({ g with resHeap := g.resHeap.set i { res with estado := "Cancelada" }, roomHeap := g.roomHeap.set res.habitacion { room with disponible := true } }, true)) ∧
    (∀ i res room cli, g.resHeap[i]? = some res →
      g.roomHeap[res.habitacion]? = some room → g.clientHeap[res.cliente]? = some cli →
      room.disponible = true →
      (∀ j ∈ g.reservas,
        resSalta g.resHeap g.clientHeap g.roomHeap cli.dpi room.numero j = true) →
      crear_reserva g i = some (crear_reserva_exito g i res room cli, true) ∧
      habDisponible (crear_reserva_exito g i res room cli).roomHeap res.habitacion = false ∧
      ∃ g2, cancelar_reserva (crear_reserva_exito g i res room cli) cli.dpi room.numero =
        some (g2, true) ∧ habDisponible g2.roomHeap res.habitacion = true) := by
  have hsalta_de : ∀ j ∈ g.reservas,
      resCoincide g.resHeap g.clientHeap g.roomHeap d n j = false →
      resSalta g.resHeap g.clientHeap g.roomHeap d n j = true := by
    intro j hj hcj
    rcases hscan j hj with hs | hc
    · exact hs
    · rw [hc] at hcj; simp at hcj
  refine ⟨⟨?_, ?_⟩, ?_, ?_⟩
  · intro h i hi
    by_contra hci
    rw [Bool.not_eq_false] at hci
    cases hf : g.reservas.find? (resCoincide g.resHeap g.clientHeap g.roomHeap d n) with
    | none => exact absurd hci (by simpa using List.find?_eq_none.mp hf i hi)
    | some i0 =>
      obtain ⟨pre, post, hdec, hpref⟩ := find?_descompone hf
      obtain ⟨res, c, room, hres, hc, hdpi, hroom, hn⟩ :=
        resCoincide_elim (List.find?_some hf)
      have hsal : ∀ j ∈ pre, resSalta g.resHeap g.clientHeap g.roomHeap d n j = true :=
        fun j hj => hsalta_de j (by rw [hdec]; exact List.mem_append_left _ hj) (hpref j hj)
      have hcomp := cancelar_reserva_eq_primera hdec hsal hres hc hdpi hroom hn
      rw [h] at hcomp
      simp at hcomp
  · intro hall
    exact cancelar_reserva_eq_nada (fun i hi => hsalta_de i hi (hall i hi))
  · intro pre i post res c room hdec hpref hres hc hdpi hroom hn
    have hsal : ∀ j ∈ pre, resSalta g.resHeap g.clientHeap g.roomHeap d n j = true :=
      fun j hj => hsalta_de j (by rw [hdec]; exact List.mem_append_left _ hj) (hpref j hj)
    exact cancelar_reserva_eq_primera hdec hsal hres hc hdpi hroom hn
  · intro i res room cli hres hroom hcli hdisp hsal
    have hbook : crear_reserva g i = some (crear_reserva_exito g i res room cli, true) := by
      unfold crear_reserva
      simp only [hres, hroom, hdisp, hcli]
      rfl
    have hcerrado : habDisponible (crear_reserva_exito g i res room cli).roomHeap
        res.habitacion = false := by
      show habDisponible (g.roomHeap.set res.habitacion { room with disponible := false })
        res.habitacion = false
      unfold habDisponible
      rw [getElem?_set_mismo hroom]
    refine ⟨hbook, hcerrado, ?_⟩
    have hdec1 : (crear_reserva_exito g i res room cli).reservas = g.reservas ++ i :: [] := rfl
    have hsal1 : ∀ j ∈ g.reservas,
        resSalta (crear_reserva_exito g i res room cli).resHeap
          (crear_reserva_exito g i res room cli).clientHeap
          (crear_reserva_exito g i res room cli).roomHeap cli.dpi room.numero j = true :=
      fun j hj => resSalta_preservada hroom hcli (hsal j hj)
    have hres1 : (crear_reserva_exito g i res room cli).resHeap[i]? = some res := hres
    have hcli1 : (crear_reserva_exito g i res room cli).clientHeap[res.cliente]? =
        some { cli with reservas := cli.reservas ++ [i] } := getElem?_set_mismo hcli
    have hroom1 : (crear_reserva_exito g i res room cli).roomHeap[res.habitacion]? =
        some { room with disponible := false } := getElem?_set_mismo hroom
    have hcancel := cancelar_reserva_eq_primera hdec1 hsal1 hres1 hcli1 rfl hroom1 rfl
    refine ⟨_, hcancel, ?_⟩
    show habDisponible ((crear_reserva_exito g i res room cli).roomHeap.set res.habitacion
      { { room with disponible := false } with disponible := true }) res.habitacion = true
    unfold habDisponible
    rw [getElem?_set_mismo hroom1]

/-- Claim C3 witness: cancelling the booked scenario reservation sets its
status to `"Cancelada"`, re-opens room 101 and reports success. -/
theorem C3_testigo :
    cancelar_reserva gReservado "CF1" 101 =
      some ({ gReservado with resHeap := gReservado.resHeap.set 0 { resEscenario with estado := "Cancelada" }, roomHeap := gReservado.roomHeap.set 0 { habEscenario with disponible := true } }, true) :=
  (C3_cancelar_reserva gReservado "CF1" 101 (by decide)).2.1 [] 0 [] resEscenario
    { cliEscenario with reservas := [0] } { habEscenario with disponible := false }
    (by decide) (by decide) (by decide) (by decide) (by decide) (by decide) (by decide)

/-- Claim C7: every scanning operation — `obtener_habitacion`,
`obtener_cliente`, `modificar_habitacion`, `actualizar_cliente`,
`modificar_reserva`, `cancelar_reserva` — acts on the first registry entry in
insertion order matching its key: the result is unchanged when everything
after the first match is dropped (later duplicates are never read), and the
mutating scans modify no heap object other than the one first matched (later
duplicates are never modified). -/
theorem C7_primera_coincidencia
    (heapH : List Habitacion) (heapC : List Cliente) (heapR : List Reserva)
    (n : Int) (d : String) (p : Rat) (nom ape : String) (fe fs : Int)
    (preH postH : List Nat) (a : Nat) (preC postC : List Nat) (b : Nat)
    (preR postR : List Nat) (i : Nat)
    (hpreH : ∀ x ∈ preH, habSalta heapH n x = true) (ha : habCoincide heapH n a = true)
    (hpreC : ∀ x ∈ preC, cliSalta heapC d x = true) (hb : cliCoincide heapC d b = true)
    (hpreR : ∀ j ∈ preR, resSalta heapR heapC heapH d n j = true)
    (hi : resCoincide heapR heapC heapH d n i = true) :
    (obtener_habitacion_go heapH (preH ++ a :: postH) n = some (some a) ∧
     obtener_habitacion_go heapH (preH ++ a :: postH) n =
       obtener_habitacion_go heapH (preH ++ [a]) n) ∧
    (obtener_cliente_go heapC (preC ++ b :: postC) d = some (some b) ∧
     obtener_cliente_go heapC (preC ++ b :: postC) d =
       obtener_cliente_go heapC (preC ++ [b]) d) ∧
    (modificar_habitacion_go heapH (preH ++ a :: postH) n p =
       modificar_habitacion_go heapH (preH ++ [a]) n p ∧
     ∀ heap' bb, modificar_habitacion_go heapH (preH ++ a :: postH) n p = some (heap', bb) →
       ∀ x, x ≠ a → heap'[x]? = heapH[x]?) ∧
    (actualizar_cliente_go heapC (preC ++ b :: postC) d nom ape =
       actualizar_cliente_go heapC (preC ++ [b]) d nom ape ∧
     ∀ heap' bb, actualizar_cliente_go heapC (preC ++ b :: postC) d nom ape =
         some (heap', bb) →
       ∀ x, x ≠ b → heap'[x]? = heapC[x]?) ∧
    (modificar_reserva_go heapR heapC heapH (preR ++ i :: postR) d n fe fs =
       modificar_reserva_go heapR heapC heapH (preR ++ [i]) d n fe fs ∧
     ∀ heap' bb, modificar_reserva_go heapR heapC heapH (preR ++ i :: postR) d n fe fs =
         some (heap', bb) →
       ∀ x, x ≠ i → heap'[x]? = heapR[x]?) ∧
    (cancelar_reserva_go heapR heapC heapH (preR ++ i :: postR) d n =
       cancelar_reserva_go heapR heapC heapH (preR ++ [i]) d n ∧
     ∀ heapR' heapH' bb res, cancelar_reserva_go heapR heapC heapH (preR ++ i :: postR) d n =
         some (heapR', heapH', bb) → heapR[i]? = some res →
       (∀ x, x ≠ i → heapR'[x]? = heapR[x]?) ∧
       (∀ x, x ≠ res.habitacion → heapH'[x]? = heapH[x]?)) := by
  obtain ⟨r, hr, hn⟩ := habCoincide_elim ha
  obtain ⟨c, hcb, hdb⟩ := cliCoincide_elim hb
  obtain ⟨resI, cI, roomI, hresI, hcI, hdI, hroomI, hnI⟩ := resCoincide_elim hi
  refine ⟨⟨?_, ?_⟩, ⟨?_, ?_⟩, ⟨?_, ?_⟩, ⟨?_, ?_⟩, ⟨?_, ?_⟩, ⟨?_, ?_⟩⟩
  · exact obtener_habitacion_go_primera heapH preH postH a n hpreH ha
  · rw [obtener_habitacion_go_primera heapH preH postH a n hpreH ha,
      obtener_habitacion_go_primera heapH preH [] a n hpreH ha]
  · exact obtener_cliente_go_primera heapC preC postC b d hpreC hb
  · rw [obtener_cliente_go_primera heapC preC postC b d hpreC hb,
      obtener_cliente_go_primera heapC preC [] b d hpreC hb]
  · rw [modificar_habitacion_go_primera heapH preH postH a r n p hpreH hr hn,
      modificar_habitacion_go_primera heapH preH [] a r n p hpreH hr hn]
  · intro heap' bb heq x hx
    rw [modificar_habitacion_go_primera heapH preH postH a r n p hpreH hr hn] at heq
    simp only [Option.some.injEq, Prod.mk.injEq] at heq
    rw [← heq.1]
    exact List.getElem?_set_ne (fun he => hx he.symm)
  · rw [actualizar_cliente_go_primera heapC preC postC b c d nom ape hpreC hcb hdb,
      actualizar_cliente_go_primera heapC preC [] b c d nom ape hpreC hcb hdb]
  · intro heap' bb heq x hx
    rw [actualizar_cliente_go_primera heapC preC postC b c d nom ape hpreC hcb hdb] at heq
    simp only [Option.some.injEq, Prod.mk.injEq] at heq
    rw [← heq.1]
    exact List.getElem?_set_ne (fun he => hx he.symm)
  · rw [modificar_reserva_go_primera heapR heapC heapH preR postR i resI cI roomI d n fe fs
      hpreR hresI hcI hdI hroomI hnI,
      modificar_reserva_go_primera heapR heapC heapH preR [] i resI cI roomI d n fe fs
      hpreR hresI hcI hdI hroomI hnI]
  · intro heap' bb heq x hx
    rw [modificar_reserva_go_primera heapR heapC heapH preR postR i resI cI roomI d n fe fs
      hpreR hresI hcI hdI hroomI hnI] at heq
    simp only [Option.some.injEq, Prod.mk.injEq] at heq
    rw [← heq.1]
    exact List.getElem?_set_ne (fun he => hx he.symm)
  · rw [cancelar_reserva_go_primera heapR heapC heapH preR postR i resI cI roomI d n
      hpreR hresI hcI hdI hroomI hnI,
      cancelar_reserva_go_primera heapR heapC heapH preR [] i resI cI roomI d n
      hpreR hresI hcI hdI hroomI hnI]
  · intro heapR' heapH' bb res heq hres
    rw [cancelar_reserva_go_primera heapR heapC heapH preR postR i resI cI roomI d n
      hpreR hresI hcI hdI hroomI hnI] at heq
    simp only [Option.some.injEq, Prod.mk.injEq] at heq
    have hrr : res = resI := by
      rw [hresI] at hres
      exact (Option.some.inj hres).symm
    constructor
    · intro x hx
      rw [← heq.1]
      exact List.getElem?_set_ne (fun he => hx he.symm)
    · intro x hx
      rw [← heq.2.1]
      rw [hrr] at hx
      exact List.getElem?_set_ne (fun he => hx he.symm)

/-- Claim C7 witness: with two rooms sharing number 101 the lookup returns
the first (address 0); the duplicate at address 1 is unreachable. -/
theorem C7_testigo : obtener_habitacion_go heapH7 [0, 1] 101 = some (some 0) :=
  (C7_primera_coincidencia heapH7 heapC7 heapR7 101 "CF1" 50 "Nora" "Luna" 7 8
    [] [1] 0 [] [1] 0 [] [1] 0 (by decide) (by decide) (by decide) (by decide) (by decide)
    (by decide)).1.1

/-- Claim C10: `remove_room` (`eliminar_habitacion`) modifies only the room
registry — room heap, client heap, reservation heap, client registry,
reservation registry (and hence every client's reservation sequence and
every reservation's fields) are untouched — and `cancelar_reserva` on a
matching pair still succeeds afterwards, setting the removed room object's
availability flag, because the scan reads the heaps, not the room
registry. -/
theorem C10_eliminar_marco (g : GestorHotel) (nElim : Int) (d : String) (n : Int)
    (g1 : GestorHotel) (helim : eliminar_habitacion g nElim = some g1) :
    (g1.roomHeap = g.roomHeap ∧ g1.clientHeap = g.clientHeap ∧ g1.resHeap = g.resHeap ∧
     g1.clientes = g.clientes ∧ g1.reservas = g.reservas) ∧
    (∀ pre i post res c room, g.reservas = pre ++ i :: post →
      (∀ j ∈ pre, resSalta g.resHeap g.clientHeap g.roomHeap d n j = true) →
      g.resHeap[i]? = some res → g.clientHeap[res.cliente]? = some c → c.dpi = d →
      g.roomHeap[res.habitacion]? = some room → room.numero = n →
      cancelar_reserva g1 d n =
        some ({ g1 with resHeap := g.resHeap.set i { res with estado := "Cancelada" }, roomHeap := g.roomHeap.set res.habitacion { room with disponible := true } }, true)) := by
  obtain ⟨l, hg1⟩ := eliminar_habitacion_inv helim
  subst hg1
  refine ⟨⟨rfl, rfl, rfl, rfl, rfl⟩, ?_⟩
  intro pre i post res c room hdec hsal hres hc hd hroom hn
  exact cancelar_reserva_eq_primera hdec hsal hres hc hd hroom hn

/-- Claim C10 witness: removing room 101 from the booked scenario state
leaves the heaps intact, and the subsequent cancellation still succeeds and
re-opens the removed room object. -/
theorem C10_testigo :
    cancelar_reserva gSinHabitacion "CF1" 101 =
      some ({ gSinHabitacion with resHeap := [{ resEscenario with estado := "Cancelada" }], roomHeap := [{ habEscenario with disponible := true }] }, true) :=
  (C10_eliminar_marco gReservado 101 "CF1" 101 gSinHabitacion (by decide)).2 [] 0 []
    resEscenario { cliEscenario with reservas := [0] } { habEscenario with disponible := false }
    (by decide) (by decide) (by decide) (by decide) (by decide) (by decide) (by decide)

/-- Claim C9: in every reachable state (any operation sequence run from the
empty initial state) every reservation in the global registry also appears
in its owning client's own reservation sequence: `crear_reserva` is the only
operation appending to either list and appends to both, and no operation
removes from either. -/
theorem C9_reserva_enlazada (ops : List Op) (g : GestorHotel) (hrun : correr ops = some g) :
    ∀ i ∈ g.reservas, ∃ res, g.resHeap[i]? = some res ∧
      ∃ c, g.clientHeap[res.cliente]? = some c ∧ i ∈ c.reservas := by
  intro i hi
  obtain ⟨res, hres, _, c, hc, hic⟩ := correr_reservas hrun i hi
  exact ⟨res, hres, c, hc, hic⟩

/-- Claim C9 witness: in the state reached by `trazaC1`, the registered
reservation at address 1 appears in its client's sequence. -/
theorem C9_testigo :
    ∃ res, gC1.resHeap[1]? = some res ∧
      ∃ c, gC1.clientHeap[res.cliente]? = some c ∧ 1 ∈ c.reservas :=
  C9_reserva_enlazada trazaC1 gC1 (by decide) 1 (by decide)

/-- Claim C1, corrected: in every reachable state, each room object has at
most one registered reservation with status `"Activa"` bound to it —
provided that no `cancelar_reserva` call of the run is made when the first
reservation matching its (dpi, room number) pair is already cancelled
(`trazaOk`).  Without this proviso the claim is false: see
`C1_contraejemplo`. -/
theorem C1_enmendada (ops : List Op) (g : GestorHotel)
    (hok : trazaOk gestorInicial ops = true) (hrun : correr ops = some g)
    (a : Nat) (r : Habitacion) (hr : g.roomHeap[a]? = some r) :
    activasEn g a ≤ 1 :=
  (correrDesde_activas invReservas_inicial invActivas_inicial hok hrun a r hr).2

/-- Claim C1 witness: a benign trace (one booking) satisfies the guard and
the bound. -/
theorem C1_enmendada_testigo :
    trazaOk gestorInicial trazaOkC1 = true ∧ activasEn gOkC1 0 ≤ 1 :=
  ⟨by decide, C1_enmendada trazaOkC1 gOkC1 (by decide) (by decide) 0 habC1 (by decide)⟩

/-- Claim C1 counterexample: the state reached by `trazaC1` — book, cancel,
book, cancel (the scan re-cancels the first, already cancelled, reservation
and re-opens the room), book — holds a room object (address 0, room number
101) with TWO reservations of status `"Activa"` bound to it, refuting the
claimed invariant on a reachable state. -/
theorem C1_contraejemplo :
    correr trazaC1 = some gC1 ∧ gC1.roomHeap[0]? = some habC1 ∧
      activasEn gC1 0 = 2 ∧ ¬ activasEn gC1 0 ≤ 1 :=
  ⟨by decide, by decide, by decide, by decide⟩
